import Mathlib

/-!
Shallow embedding of `Lib/ufo2ft/instructionCompiler.py` (class
`InstructionCompiler`): the TrueType instruction compiler of ufo2ft.

Python dictionaries holding the hint records are embedded as structures of
optional fields; a missing key is `none` / `PyVal.none`.  Raised Python
exceptions are embedded as `Except PyError`.  Log output is embedded as a
list of `Diag` values carrying the log level.  External collaborators
(fontTools `HashPointPen`, `Program.fromAssembly`) supply the computed
glyph hash and the mnemonics-to-bytecode translator; they are passed in as
parameters (`computedHash : String`, `assemble : String → List Nat`).
-/

namespace InstructionCompiler

/-- A Python value as it can appear under the `formatVersion` key:
a string, an int, or absent (`None`). -/
inductive PyVal where
  | str (s : String)
  | int (n : Int)
  | none
deriving DecidableEq, Repr

/-- Python exceptions raised by the instruction compiler:
`TypeError`, `NotImplementedError` (both from `_check_tt_data_format`),
`ValueError` (from `int(k)` in `setupTable_cvt`) and `OverflowError`
(from `array.array("h", ...)` in `setupTable_cvt`). -/
inductive PyError where
  | typeError
  | notImplementedError
  | valueError
  | overflowError
deriving DecidableEq, Repr

/-- A logging level, as used by the `logging` module calls in the source. -/
inductive DiagLevel where
  | debug
  | info
  | warning
  | error
deriving DecidableEq, Repr

/-- One emitted log record. -/
structure Diag where
  level : DiagLevel
  msg : String
deriving DecidableEq, Repr

/-- `_check_tt_data_format(self, ttdata, name)` (lines 46-58):
`formatVersion = ttdata.get("formatVersion", None)`; raise `TypeError`
unless it is a `str`; raise `NotImplementedError` unless it equals `"1"`. -/
def check_tt_data_format (formatVersion : PyVal) : Except PyError Unit :=
  match formatVersion with
  | .str s => if s = "1" then .ok () else .error .notImplementedError
  | _ => .error .typeError

/-- `_check_glyph_hash(self, glyph, ttglyph, glyph_hash, otf)` (lines 25-44).
The hash freshly computed by the `HashPointPen` over the compiled glyph and
its advance width is the parameter `computedHash`; the stored hash from the
UFO is `glyph_hash`.  Returns the boolean result together with the log
records emitted. -/
def check_glyph_hash (glyph_hash : Option String) (computedHash : String) :
    Bool × List Diag :=
  match glyph_hash with
  | Option.none => (false, [⟨.error, "Glyph hash missing"⟩])
  | some h =>
    if h = computedHash then (true, [])
    else (false, [⟨.error, "Glyph hash mismatch"⟩])

/-- The glyph-level hint record stored under the key
`public.truetype.instructions` in a glyph lib (`formatVersion`, `id`,
`assembly`). -/
structure GlyphTTData where
  formatVersion : PyVal
  id : Option String
  assembly : Option String
deriving DecidableEq, Repr

/-- Python truthiness of an optional string (`if use_my_metrics_comp:`,
`if not asm:`): `None` and the empty string are falsy. -/
def truthyOptStr : Option String → Bool
  | Option.none => false
  | some s => s ≠ ""

/-- A fontTools `ttProgram.Program` object as this file uses it: after
`fromAssembly(asm)` it carries the assembly text; a pre-existing program
(produced elsewhere) may instead carry bytecode.  Its Python truthiness is
`len(assembly) > 0 or len(bytecode) > 0`; `getBytecode()` assembles the
text via the external translator (the `assemble` parameter). -/
inductive Program where
  | fromAsm (asm : String)
  | fromBytecode (bytecode : List Nat)
deriving DecidableEq, Repr

/-- Python truthiness of a `Program` (`not ttGlyph.program`). -/
def Program.truthy : Program → Bool
  | .fromAsm a => a ≠ ""
  | .fromBytecode bc => !bc.isEmpty

/-- `program.getBytecode()`: assemble the stored text, or return the stored
bytecode. -/
def Program.getBytecode (assemble : String → List Nat) : Program → List Nat
  | .fromAsm a => assemble a
  | .fromBytecode bc => bc

/-- `_compile_tt_glyph_program(self, glyph, ttglyph, ttdata)` (lines
104-126).  `prog0` is the `program` attribute of the fontTools glyph before
the call (`none` when absent); the first component of the result is the
`program` attribute after the call.  A raised exception is `.error`. -/
def compile_tt_glyph_program (ttdata : GlyphTTData) (computedHash : String)
    (prog0 : Option Program) :
    Except PyError (Option Program × List Diag) := do
  check_tt_data_format ttdata.formatVersion
  let (ok, ds) := check_glyph_hash ttdata.id computedHash
  if !ok then
    return (prog0, ds)
  match ttdata.assembly with
  | Option.none =>
    return (prog0, ds ++ [⟨.error, "Glyph assembly missing"⟩])
  | some asm =>
    if asm = "" then
      return (prog0, ds ++ [⟨.debug, "Glyph has no instructions"⟩])
    else
      return (some (.fromAsm asm), ds)

/-! ### Composite flag resolution -/

/-- `fontTools.ttLib.tables._g_l_y_f.ROUND_XY_TO_GRID` (0x0004). -/
def ROUND_XY_TO_GRID : Nat := 4

/-- `fontTools.ttLib.tables._g_l_y_f.USE_MY_METRICS` (0x0200). -/
def USE_MY_METRICS : Nat := 512

/-- `fontTools.ttLib.tables._g_l_y_f.OVERLAP_COMPOUND` (0x0400). -/
def OVERLAP_COMPOUND : Nat := 1024

/-- `c.flags |= m`. -/
def setFlag (f m : Nat) : Nat := f ||| m

/-- `c.flags &= ~m` on Python non-negative ints: keep exactly the bits of
`f` that are not in `m` (encoded as `f XOR (f AND m)`, which clears the
bits of `m` inside `f`). -/
def clearFlag (f m : Nat) : Nat := f ^^^ (f &&& m)

/-- Whether a flag word has any bit of the mask `m` set. -/
def hasFlag (f m : Nat) : Bool := f &&& m != 0

/-- The per-component metadata stored under a component identifier in the
glyph lib `public.objectLibs` dictionary: the keys
`public.truetype.roundOffsetToGrid` and `public.truetype.useMyMetrics`. -/
structure CompLib where
  roundOffsetToGrid : Option Bool
  useMyMetrics : Option Bool
deriving DecidableEq, Repr

/-- The parts of a UFO glyph lib read by the instruction compiler:
`public.truetype.instructions`, `public.objectLibs`,
`public.truetype.overlap`.  A missing key is `none`. -/
structure GlyphLib where
  ttdata : Option GlyphTTData
  objectLibs : Option (List (String × CompLib))
  overlap : Option Bool
deriving DecidableEq, Repr

/-- A UFO glyph as the instruction compiler reads it: its name, the
identifiers of its components (in source order; `none` when a component
has no identifier), and its lib. -/
structure Glyph where
  name : String
  components : List (Option String)
  lib : GlyphLib
deriving DecidableEq, Repr

/-- The `if ufo_component_id is None / elif ...` chain of the loop body of
`_set_composite_flags` (lines 148-191): given a component identifier, its
current flag word `f` and the `use_my_metrics_comp` state `u`, return the
new flag word, the new state and the log records emitted. -/
def componentFlagsMain (autoUseMyMetrics : Bool) (glib : GlyphLib)
    (ident : Option String) (f : Nat) (u : Option String) :
    Nat × Option String × List Diag :=
  match ident with
  | Option.none => (setFlag f ROUND_XY_TO_GRID, u, [])
  | some cid =>
    match glib.objectLibs with
    | Option.none => (f, u, [])
    | some ols =>
      match ols.lookup cid with
      | Option.none => (f, u, [])
      | some clib =>
        if clib.roundOffsetToGrid.isSome || clib.useMyMetrics.isSome then
          let r2 : Nat × List Diag :=
            if clib.roundOffsetToGrid.getD true then
              (setFlag f ROUND_XY_TO_GRID, [⟨.info, "    ROUND_XY_TO_GRID"⟩])
            else
              (clearFlag f ROUND_XY_TO_GRID, [])
          if !autoUseMyMetrics && clib.useMyMetrics.getD false then
            let f3 := clearFlag r2.1 USE_MY_METRICS
            if truthyOptStr u then
              (f3, u, r2.2 ++ [⟨.warning, "Ignoring USE_MY_METRICS flag"⟩])
            else
              (setFlag f3 USE_MY_METRICS, some cid, r2.2)
          else
            (r2.1, u, r2.2)
        else
          (f, u, [])

/-- The `OVERLAP_COMPOUND` block of the loop body (lines 192-197), applied
to the flag word produced by the main chain. -/
def componentFlagsOverlap (glib : GlyphLib) (i : Nat) (f : Nat) :
    Nat × List Diag :=
  if i = 0 && glib.overlap.isSome then
    if glib.overlap.getD false then
      (setFlag f OVERLAP_COMPOUND, [])
    else
      (clearFlag f OVERLAP_COMPOUND, [])
  else
    (f, [])

/-- One iteration of the loop in `_set_composite_flags` (lines 148-197):
given the component index `i`, its UFO identifier, its current flag word
`f` and the `use_my_metrics_comp` state `u`, return the new flag word, the
new state and the log records emitted. -/
def flags_one (autoUseMyMetrics : Bool) (glib : GlyphLib) (i : Nat)
    (ident : Option String) (f : Nat) (u : Option String) :
    Nat × Option String × List Diag :=
  let step1 := componentFlagsMain autoUseMyMetrics glib ident f u
  let step2 := componentFlagsOverlap glib i step1.1
  (step2.1, step1.2.1, step1.2.2 ++ step2.2)

/-- The `for i, c in enumerate(ttglyph.components)` loop of
`_set_composite_flags`, folding `flags_one` left to right over the paired
UFO identifiers and fontTools flag words with the running
`use_my_metrics_comp` state `u`. -/
def scfLoop (autoUseMyMetrics : Bool) (glib : GlyphLib) :
    List (Option String) → List Nat → Nat → Option String → List Nat × List Diag
  | [], _, _, _ => ([], [])
  | _ :: _, [], _, _ => ([], [])
  | ident :: ids, f :: fs, i, u =>
    let r := flags_one autoUseMyMetrics glib i ident f u
    let rest := scfLoop autoUseMyMetrics glib ids fs (i + 1) r.2.1
    (r.1 :: rest.1, r.2.2 ++ rest.2)

/-- `_set_composite_flags(self, glyph, ttglyph)` (lines 128-197).
`ttcomps` is the list of the fontTools components' flag words; the result
is the list of flag words after the call, together with the log records. -/
def set_composite_flags (autoUseMyMetrics : Bool) (glyph : Glyph)
    (ttcomps : List Nat) : List Nat × List Diag :=
  if ttcomps.length ≠ glyph.components.length then
    (ttcomps, [⟨.error, "Number of components differ between UFO and TTF"⟩])
  else
    scfLoop autoUseMyMetrics glyph.lib glyph.components ttcomps 0 Option.none

/-! ### Per-glyph driver -/

/-- The parts of a fontTools glyph object touched here: the optional
`program` attribute and the flag words of its components.  A glyph is
composite exactly when it has components. -/
structure TTGlyph where
  program : Option Program
  components : List Nat
deriving DecidableEq, Repr

/-- `ttGlyph.isComposite()`. -/
def TTGlyph.isComposite (g : TTGlyph) : Bool := !g.components.isEmpty

/-- `compileGlyphInstructions(self, ttGlyph, name)` (lines 82-102).
`ufo` is the list of glyphs of the input UFO; `autoUseMyMetrics` is the
`self.autoUseMyMetrics` attribute.  Returns the updated fontTools glyph
and the log records, or the raised exception. -/
def compileGlyphInstructions (autoUseMyMetrics : Bool) (ufo : List Glyph)
    (computedHash : String) (ttGlyph : TTGlyph) (name : String) :
    Except PyError (TTGlyph × List Diag) := do
  match ufo.find? (fun g => g.name = name) with
  | Option.none =>
    return (ttGlyph, [⟨.info, "Skipping compilation of instructions for glyph"⟩])
  | some glyph =>
    let r1 : TTGlyph × List Diag ←
      match glyph.lib.ttdata with
      | Option.none => Except.ok (ttGlyph, [])
      | some ttdata => do
        let r ← compile_tt_glyph_program ttdata computedHash ttGlyph.program
        Except.ok ({ ttGlyph with program := r.1 }, r.2)
    if r1.1.isComposite then
      let r2 : TTGlyph × List Diag :=
        match r1.1.program with
        | some p =>
          if !p.truthy then
            ({ r1.1 with program := Option.none },
             [⟨.debug, "Removing empty program from composite glyph"⟩])
          else
            (r1.1, [])
        | Option.none => (r1.1, [])
      let r3 := set_composite_flags autoUseMyMetrics glyph r2.1.components
      return ({ r2.1 with components := r3.1 }, r1.2 ++ r2.2 ++ r3.2)
    else
      return r1

/-! ### Font-level record, global programs, maxp, cvt -/

/-- The font-level hint record stored under `public.truetype.instructions`
in the font lib.  A missing key is `none` / `PyVal.none`.  The authored
`maxSizeOfInstructions` key is representable but, as in the source, never
read by `update_maxp`. -/
structure FontTTData where
  formatVersion : PyVal
  fontProgram : Option String
  controlValueProgram : Option String
  controlValue : Option (List (String × Int))
  maxStorage : Option Int
  maxFunctionDefs : Option Int
  maxInstructionDefs : Option Int
  maxStackElements : Option Int
  maxZones : Option Int
  maxTwilightPoints : Option Int
  maxSizeOfInstructions : Option Int
deriving DecidableEq, Repr

/-- Python truthiness of the font-level record dictionary (`if ttdata:`):
an empty dictionary is falsy. -/
def FontTTData.isEmptyDict (d : FontTTData) : Bool :=
  d.formatVersion == PyVal.none && d.fontProgram.isNone &&
  d.controlValueProgram.isNone && d.controlValue.isNone &&
  d.maxStorage.isNone && d.maxFunctionDefs.isNone &&
  d.maxInstructionDefs.isNone && d.maxStackElements.isNone &&
  d.maxZones.isNone && d.maxTwilightPoints.isNone &&
  d.maxSizeOfInstructions.isNone

/-- The two keys `_compile_program` may be asked to compile
(`"fontProgram"` for `fpgm`, `"controlValueProgram"` for `prep`). -/
inductive ProgKey where
  | fontProgram
  | controlValueProgram
deriving DecidableEq, Repr

/-- `ttdata.get(key, None)` for a `ProgKey`. -/
def FontTTData.getKey (d : FontTTData) : ProgKey → Option String
  | .fontProgram => d.fontProgram
  | .controlValueProgram => d.controlValueProgram

/-- `_compile_program(self, key, table_tag)` (lines 60-80), shared by
`setupTable_fpgm` and `setupTable_prep`.  The first component of the
result is the program of the table installed into the font (`none` when no
table is added). -/
def compile_program (fontLib : Option FontTTData) (key : ProgKey) :
    Except PyError (Option Program × List Diag) := do
  match fontLib with
  | Option.none => return (Option.none, [])
  | some d =>
    if d.isEmptyDict then
      return (Option.none, [])
    else do
      check_tt_data_format d.formatVersion
      match d.getKey key with
      | Option.none => return (Option.none, [])
      | some asm =>
        if asm = "" then
          return (Option.none, [⟨.debug, "Assembly for table is empty"⟩])
        else
          return (some (.fromAsm asm), [])

/-- The fields of the fontTools `maxp` table touched by `update_maxp`. -/
structure MaxpTable where
  maxStorage : Int
  maxFunctionDefs : Int
  maxInstructionDefs : Int
  maxStackElements : Int
  maxZones : Int
  maxTwilightPoints : Int
  maxSizeOfInstructions : Int
deriving DecidableEq, Repr

/-- The copy loop of `update_maxp` (lines 206-217): each named capacity
field present in the record is copied onto the maxp table;
`maxSizeOfInstructions` is deliberately not in the list. -/
def copy_maxp_fields (d : FontTTData) (m : MaxpTable) : MaxpTable :=
  let m1 := match d.maxStorage with
    | some v => { m with maxStorage := v }
    | Option.none => m
  let m2 := match d.maxFunctionDefs with
    | some v => { m1 with maxFunctionDefs := v }
    | Option.none => m1
  let m3 := match d.maxInstructionDefs with
    | some v => { m2 with maxInstructionDefs := v }
    | Option.none => m2
  let m4 := match d.maxStackElements with
    | some v => { m3 with maxStackElements := v }
    | Option.none => m3
  let m5 := match d.maxZones with
    | some v => { m4 with maxZones := v }
    | Option.none => m4
  match d.maxTwilightPoints with
  | some v => { m5 with maxTwilightPoints := v }
  | Option.none => m5

/-- The bytecode lengths of the glyphs that carry a `program` attribute
(the list comprehension of `update_maxp`, lines 220-224). -/
def programSizes (assemble : String → List Nat) (glyphs : List TTGlyph) :
    List Nat :=
  (glyphs.filterMap (fun g => g.program)).map
    (fun p => (p.getBytecode assemble).length)

/-- `update_maxp(self)` (lines 199-225).  `glyphs` are the glyphs of the
compiled `glyf` table; `maxp` is the maxp table before the call. -/
def update_maxp (fontLib : Option FontTTData) (glyphs : List TTGlyph)
    (assemble : String → List Nat) (maxp : MaxpTable) : MaxpTable :=
  let m1 := match fontLib with
    | some d => if d.isEmptyDict then maxp else copy_maxp_fields d maxp
    | Option.none => maxp
  { m1 with
    maxSizeOfInstructions :=
      Int.ofNat ((programSizes assemble glyphs).foldl max 0) }

/-- Strip leading and trailing spaces from a character list. -/
def trimSpaces (cs : List Char) : List Char :=
  ((cs.dropWhile (fun c => c = ' ')).reverse.dropWhile (fun c => c = ' ')).reverse

/-- Python `int(s)` on a string, as used for the control-value keys:
optional surrounding whitespace, an optional sign, then decimal digits;
any other shape raises `ValueError` (`none` here). -/
def pyInt (s : String) : Option Int :=
  let cs := trimSpaces s.toList
  let digits? : List Char → Option Nat := fun ds =>
    if ds.isEmpty then Option.none
    else
      ds.foldl (fun acc c =>
        match acc with
        | some n => if c.isDigit then some (n * 10 + (c.toNat - 48)) else Option.none
        | Option.none => Option.none) (some 0)
  match cs with
  | '-' :: rest => (digits? rest).map (fun n => -(n : Int))
  | '+' :: rest => (digits? rest).map (fun n => (n : Int))
  | _ => (digits? cs).map (fun n => (n : Int))

/-- Lookup in a Python dict built from an association list: the latest
binding of a key wins. -/
def lookupLast (ps : List (Int × Int)) (k : Int) : Option Int :=
  ps.reverse.lookup k

/-- `setupTable_cvt(self)` (lines 227-247).  The result is the installed
table's value list (`none` when no `cvt ` table is added), or the raised
exception (`ValueError` from `int(k)`, `OverflowError` from
`array.array("h", cvts)`). -/
def setupTable_cvt (fontLib : Option FontTTData) :
    Except PyError (Option (List Int)) := do
  match fontLib with
  | Option.none => return Option.none
  | some d =>
    if d.isEmptyDict then
      return Option.none
    else do
      check_tt_data_format d.formatVersion
      match d.controlValue with
      | Option.none => return Option.none
      | some cv =>
        if cv.isEmpty then
          return Option.none
        else do
          let ikeys ← cv.mapM (fun p =>
            match pyInt p.1 with
            | some k => Except.ok ((k, p.2) : Int × Int)
            | Option.none => Except.error PyError.valueError)
          match ikeys with
          | [] => return Option.none
          | q :: qs =>
            let maxk := qs.foldl (fun a p => max a p.1) q.1
            let cvts := (List.range (maxk + 1).toNat).map
              (fun i => (lookupLast ikeys (Int.ofNat i)).getD 0)
            if cvts.isEmpty then
              return Option.none
            else if cvts.all (fun v => -32768 ≤ v && v ≤ 32767) then
              return (some cvts)
            else
              Except.error PyError.overflowError

/-- Analysis predicate (not a source function): a component enters the
`USE_MY_METRICS` branch of `_set_composite_flags` — it has an identifier,
the identifier is a key of the glyph's `public.objectLibs`, its component
lib carries the round or the metrics key, automatic metrics selection is
off and the metrics value is truthy. -/
def isClaimant (autoUseMyMetrics : Bool) (glib : GlyphLib)
    (ident : Option String) : Bool :=
  match ident with
  | Option.none => false
  | some cid =>
    match glib.objectLibs with
    | Option.none => false
    | some ols =>
      match ols.lookup cid with
      | Option.none => false
      | some clib =>
        (clib.roundOffsetToGrid.isSome || clib.useMyMetrics.isSome) &&
        (!autoUseMyMetrics && clib.useMyMetrics.getD false)

/-- The integer-keyed entries of a control-value mapping, keys parsed with
`pyInt` (entries whose key does not parse are dropped; under the C9
hypotheses every key parses). -/
def parsedEntries (cv : List (String × Int)) : List (Int × Int) :=
  cv.filterMap (fun p => (pyInt p.1).map (fun k => (k, p.2)))

/-- `max(cvt_dict.keys())` over an association list (`0` for the empty
list, which the source never queries). -/
def maxKey : List (Int × Int) → Int
  | [] => 0
  | q :: qs => qs.foldl (fun a p => max a p.1) q.1

/-- Concrete font-level record carrying the spec's control-value example
`{"1": 500, "2": 750, "3": -250}`. -/
def cvtLibEx : FontTTData :=
  ⟨.str "1", Option.none, Option.none,
   some [("1", 500), ("2", 750), ("3", -250)], Option.none, Option.none,
   Option.none, Option.none, Option.none, Option.none, Option.none⟩

/-- Concrete font-level record with a non-numeric control-value key. -/
def cvtBadKeyLib : FontTTData :=
  ⟨.str "1", Option.none, Option.none, some [("x", 5)], Option.none,
   Option.none, Option.none, Option.none, Option.none, Option.none,
   Option.none⟩

/-- Concrete font-level record with a control value outside the signed
16-bit range. -/
def cvtBadValLib : FontTTData :=
  ⟨.str "1", Option.none, Option.none, some [("1", 40000)], Option.none,
   Option.none, Option.none, Option.none, Option.none, Option.none,
   Option.none⟩

/-- Number of warning-level log records in a diagnostic stream. -/
def warningCount (ds : List Diag) : Nat :=
  ds.countP (fun d => d.level == DiagLevel.warning)

/-- Concrete glyph for the C3 counterexample: two components, both
requesting `USE_MY_METRICS`, the first with the empty string as its
identifier (a key the `public.objectLibs` dictionary can carry). -/
def c3Glyph : Glyph :=
  ⟨"g", [some "", some "a"],
   ⟨Option.none,
    some [("", ⟨Option.none, some true⟩), ("a", ⟨Option.none, some true⟩)],
    Option.none⟩⟩

/-- Concrete glyph for the C3 witness: two components with non-empty
identifiers `"a"` and `"b"`, both requesting `USE_MY_METRICS`. -/
def c3GlyphW : Glyph :=
  ⟨"g", [some "a", some "b"],
   ⟨Option.none,
    some [("a", ⟨Option.none, some true⟩), ("b", ⟨Option.none, some true⟩)],
    Option.none⟩⟩

/-- Number of space-separated tokens in a character list (`inWord` tells
whether the previous character was part of a token). -/
def tokenCount : List Char → Bool → Nat
  | [], _ => 0
  | c :: cs, inWord =>
    if c = ' ' then tokenCount cs false
    else (if inWord then 0 else 1) + tokenCount cs true

/-- A toy mnemonics-to-bytecode translator standing in for the external
fontTools assembler in concrete evaluations: one byte per whitespace
separated token.  Like the real assembler it produces zero bytes for
whitespace-only text. -/
def sampleAssemble (s : String) : List Nat :=
  List.replicate (tokenCount s.toList false) 1

/-- Concrete maxp table used in witnesses. -/
def maxpEx : MaxpTable := ⟨1, 2, 3, 4, 5, 6, 7⟩

/-- Concrete font-level record for the C5 witness: authored `maxStorage`
and an authored `maxSizeOfInstructions` that must be ignored. -/
def fontLibEx : FontTTData :=
  ⟨.str "1", Option.none, Option.none, Option.none, some 123, Option.none,
   Option.none, Option.none, Option.none, Option.none, some 99⟩

/-- Concrete glyph with a 3-byte program. -/
def glyphEx : TTGlyph := ⟨some (.fromBytecode [1, 2, 3]), []⟩

/-- Concrete font-level record whose `formatVersion` is the non-string
`1` and which carries an authored `maxStorage`. -/
def badFmtLib : FontTTData :=
  ⟨.int 1, Option.none, Option.none, Option.none, some 123, Option.none,
   Option.none, Option.none, Option.none, Option.none, Option.none⟩

/-!
## Helper lemmas
-/

theorem exceptBind_ok {ε α β : Type} (a : α) (f : α → Except ε β) :
    (Except.ok a >>= f) = f a := rfl

theorem exceptBind_error {ε α β : Type} (e : ε) (f : α → Except ε β) :
    ((Except.error e : Except ε α) >>= f) = Except.error e := rfl

theorem exceptPure {ε α : Type} (a : α) :
    (pure a : Except ε α) = Except.ok a := rfl

theorem testBit_setFlag (f m k : Nat) :
    (setFlag f m).testBit k = (f.testBit k || m.testBit k) :=
  Nat.testBit_lor f m k

theorem testBit_clearFlag (f m k : Nat) :
    (clearFlag f m).testBit k = (f.testBit k && !(m.testBit k)) := by
  unfold clearFlag
  rw [Nat.testBit_xor, Nat.testBit_land]
  cases f.testBit k <;> cases m.testBit k <;> rfl

theorem hasFlag_testBit (f k : Nat) : hasFlag f (2 ^ k) = f.testBit k := by
  unfold hasFlag
  rw [Nat.and_two_pow]
  cases h : f.testBit k <;> simp [h]

theorem hasFlag_USE_MY_METRICS (f : Nat) :
    hasFlag f USE_MY_METRICS = f.testBit 9 := by
  have h : USE_MY_METRICS = 2 ^ 9 := by norm_num [USE_MY_METRICS]
  rw [h, hasFlag_testBit]

theorem hasFlag_OVERLAP_COMPOUND (f : Nat) :
    hasFlag f OVERLAP_COMPOUND = f.testBit 10 := by
  have h : OVERLAP_COMPOUND = 2 ^ 10 := by norm_num [OVERLAP_COMPOUND]
  rw [h, hasFlag_testBit]

theorem bit4_9 : Nat.testBit ROUND_XY_TO_GRID 9 = false := by decide
theorem bit4_10 : Nat.testBit ROUND_XY_TO_GRID 10 = false := by decide
theorem bit512_9 : Nat.testBit USE_MY_METRICS 9 = true := by decide
theorem bit512_10 : Nat.testBit USE_MY_METRICS 10 = false := by decide
theorem bit1024_9 : Nat.testBit OVERLAP_COMPOUND 9 = false := by decide
theorem bit1024_10 : Nat.testBit OVERLAP_COMPOUND 10 = true := by decide

/-!
## Claims
-/

/-- **C2**: the Format Guard (`_check_tt_data_format`) raises a hard
wrong-type error (`TypeError`) for a missing or non-string
`formatVersion`, a hard unsupported-version error
(`NotImplementedError`) for a string different from `"1"`, and passes
exactly the string `"1"`; the two failure kinds are distinct. -/
theorem c2_format_guard (fv : PyVal) :
    (fv = .str "1" → check_tt_data_format fv = .ok ()) ∧
    ((∀ s, fv ≠ .str s) → check_tt_data_format fv = .error .typeError) ∧
    (∀ s, fv = .str s → s ≠ "1" →
      check_tt_data_format fv = .error .notImplementedError) ∧
    PyError.typeError ≠ PyError.notImplementedError := by
  refine ⟨fun h => ?_, fun h => ?_, fun s hs hne => ?_, by decide⟩
  · subst h; rfl
  · cases fv with
    | str s => exact absurd rfl (h s)
    | int n => rfl
    | none => rfl
  · subst hs
    simp [check_tt_data_format, hne]

/-- Witness for C2 at the spec's own test points: `formatVersion = 1`
(an int) raises the wrong-type error, `"2"` raises the
unsupported-version error, `"1"` passes. -/
theorem c2_format_guard_witness :
    check_tt_data_format (.int 1) = .error .typeError ∧
    check_tt_data_format (.str "2") = .error .notImplementedError ∧
    check_tt_data_format (.str "1") = .ok () ∧
    PyError.typeError ≠ PyError.notImplementedError :=
  ⟨(c2_format_guard (.int 1)).2.1 (fun s h => PyVal.noConfusion h),
   (c2_format_guard (.str "2")).2.2.1 "2" rfl (by decide),
   (c2_format_guard (.str "1")).1 rfl,
   (c2_format_guard (.int 1)).2.2.2⟩

/-- Helper: `_compile_tt_glyph_program` on a record whose `formatVersion`
is not the string `"1"` propagates the format error untouched: no program,
no log record. -/
theorem ctgp_format_error (R : GlyphTTData) (ch : String) (p0 : Option Program)
    (h : R.formatVersion ≠ .str "1") :
    ∃ e, compile_tt_glyph_program R ch p0 = .error e ∧
      (e = .typeError ∨ e = .notImplementedError) := by
  unfold compile_tt_glyph_program check_tt_data_format
  cases hfv : R.formatVersion with
  | str s =>
    have hs : s ≠ "1" := by rintro rfl; exact h hfv
    exact ⟨.notImplementedError, by simp [hs]; rfl, Or.inr rfl⟩
  | int n => exact ⟨.typeError, by rfl, Or.inl rfl⟩
  | none => exact ⟨.typeError, by rfl, Or.inl rfl⟩

/-- Helper: `_compile_tt_glyph_program` attaches the assembled program
exactly when the format is `"1"`, the stored hash equals the computed one
and the assembly text is a non-empty string. -/
theorem ctgp_attach (R : GlyphTTData) (ch : String) (p0 : Option Program)
    (asm : String) (h1 : R.formatVersion = .str "1") (h2 : R.id = some ch)
    (h3 : R.assembly = some asm) (h4 : asm ≠ "") :
    compile_tt_glyph_program R ch p0 = .ok (some (.fromAsm asm), []) := by
  unfold compile_tt_glyph_program
  rw [h1, h2, h3]
  simp [check_tt_data_format, check_glyph_hash, h4, Except.bind]

/-- Helper: with a valid format but a failing hash check or a missing or
empty assembly, `_compile_tt_glyph_program` leaves the program untouched
and emits a log record. -/
theorem ctgp_soft_failure (R : GlyphTTData) (ch : String) (p0 : Option Program)
    (h1 : R.formatVersion = .str "1")
    (h2 : ¬(R.id = some ch ∧ truthyOptStr R.assembly = true)) :
    ∃ ds, compile_tt_glyph_program R ch p0 = .ok (p0, ds) ∧ ds ≠ [] := by
  unfold compile_tt_glyph_program
  rw [h1]
  by_cases hid : R.id = some ch
  · rw [hid]
    have hasm : truthyOptStr R.assembly = false := by
      cases hx : truthyOptStr R.assembly
      · rfl
      · exact absurd ⟨hid, hx⟩ h2
    cases ha : R.assembly with
    | none =>
      exact ⟨[⟨.error, "Glyph assembly missing"⟩],
        by simp [check_tt_data_format, check_glyph_hash, Except.bind], by simp⟩
    | some asm =>
      have : asm = "" := by
        by_contra hne
        rw [ha] at hasm
        simp [truthyOptStr, hne] at hasm
      subst this
      exact ⟨[⟨.debug, "Glyph has no instructions"⟩],
        by simp [check_tt_data_format, check_glyph_hash, Except.bind], by simp⟩
  · cases hid2 : R.id with
    | none =>
      exact ⟨[⟨.error, "Glyph hash missing"⟩],
        by simp [check_tt_data_format, check_glyph_hash, Except.bind], by simp⟩
    | some h =>
      have hne : h ≠ ch := by rintro rfl; exact hid hid2
      exact ⟨[⟨.error, "Glyph hash mismatch"⟩],
        by simp [check_tt_data_format, check_glyph_hash, hne, Except.bind], by simp⟩

/-- **C8**: when the number of compiled components differs from the number
of source components, `_set_composite_flags` aborts for this glyph only:
it emits a single error-level log record and leaves every component flag
word exactly as it was. -/
theorem c8_component_count_mismatch (autoUseMyMetrics : Bool) (glyph : Glyph)
    (ttcomps : List Nat) (h : ttcomps.length ≠ glyph.components.length) :
    (set_composite_flags autoUseMyMetrics glyph ttcomps).1 = ttcomps ∧
    (set_composite_flags autoUseMyMetrics glyph ttcomps).2 =
      [⟨.error, "Number of components differ between UFO and TTF"⟩] := by
  unfold set_composite_flags
  simp [h]

/-- Witness for C8: a glyph with one source component against two compiled
components keeps its flag words `[3, 7]` unchanged. -/
theorem c8_component_count_mismatch_witness :
    (set_composite_flags false
      ⟨"g", [Option.none], ⟨Option.none, Option.none, Option.none⟩⟩ [3, 7]).1 = [3, 7] ∧
    (set_composite_flags false
      ⟨"g", [Option.none], ⟨Option.none, Option.none, Option.none⟩⟩ [3, 7]).2 =
      [⟨.error, "Number of components differ between UFO and TTF"⟩] :=
  c8_component_count_mismatch false
    ⟨"g", [Option.none], ⟨Option.none, Option.none, Option.none⟩⟩ [3, 7] (by decide)

/-- Helper: when the glyph is found in the UFO and carries a hint record
whose `formatVersion` is not `"1"`, `compileGlyphInstructions` propagates
the format error. -/
theorem cgi_format_error (auto : Bool) (ufo : List Glyph) (ch : String)
    (ttGlyph : TTGlyph) (name : String) (glyph : Glyph) (R : GlyphTTData)
    (hfind : ufo.find? (fun g => g.name = name) = some glyph)
    (hR : glyph.lib.ttdata = some R)
    (hfmt : R.formatVersion ≠ .str "1") :
    ∃ e, compileGlyphInstructions auto ufo ch ttGlyph name = .error e := by
  obtain ⟨e, hc, _⟩ := ctgp_format_error R ch ttGlyph.program hfmt
  refine ⟨e, ?_⟩
  unfold compileGlyphInstructions
  rw [hfind]
  simp only [hR, hc, exceptBind_error]

/-- Helper: when the record passes the format, hash and non-empty-assembly
checks, `compileGlyphInstructions` leaves the glyph with the attached
program (a composite never strips it: its assembly text is non-empty, so
the program is truthy). -/
theorem cgi_attach (auto : Bool) (ufo : List Glyph) (ch : String)
    (ttGlyph : TTGlyph) (name : String) (glyph : Glyph) (R : GlyphTTData)
    (asm : String)
    (hfind : ufo.find? (fun g => g.name = name) = some glyph)
    (hR : glyph.lib.ttdata = some R)
    (h1 : R.formatVersion = .str "1") (h2 : R.id = some ch)
    (h3 : R.assembly = some asm) (h4 : asm ≠ "") :
    ∃ g ds, compileGlyphInstructions auto ufo ch ttGlyph name = .ok (g, ds) ∧
      g.program = some (.fromAsm asm) := by
  have htruthy : Program.truthy (.fromAsm asm) = true := by
    simp [Program.truthy, h4]
  obtain ⟨p0, comps⟩ := ttGlyph
  have hc := ctgp_attach R ch p0 asm h1 h2 h3 h4
  cases comps with
  | nil =>
    refine ⟨⟨some (.fromAsm asm), []⟩, [], ?_, rfl⟩
    unfold compileGlyphInstructions
    rw [hfind]
    simp [hR, hc, exceptBind_ok, exceptPure, TTGlyph.isComposite]
  | cons c cs =>
    refine ⟨⟨some (.fromAsm asm),
        (set_composite_flags auto glyph (c :: cs)).1⟩,
      (set_composite_flags auto glyph (c :: cs)).2, ?_, rfl⟩
    unfold compileGlyphInstructions
    rw [hfind]
    simp [hR, hc, exceptBind_ok, exceptPure, TTGlyph.isComposite, htruthy]

/-- Helper: when the record passes the format check but the hash check
fails or the assembly is missing or empty, and the glyph had no program
before the call, `compileGlyphInstructions` returns a glyph without a
program and a non-empty diagnostic stream. -/
theorem cgi_soft_failure (auto : Bool) (ufo : List Glyph) (ch : String)
    (ttGlyph : TTGlyph) (name : String) (glyph : Glyph) (R : GlyphTTData)
    (hfind : ufo.find? (fun g => g.name = name) = some glyph)
    (hR : glyph.lib.ttdata = some R)
    (hp0 : ttGlyph.program = Option.none)
    (h1 : R.formatVersion = .str "1")
    (h2 : ¬(R.id = some ch ∧ truthyOptStr R.assembly = true)) :
    ∃ g ds, compileGlyphInstructions auto ufo ch ttGlyph name = .ok (g, ds) ∧
      g.program = Option.none ∧ ds ≠ [] := by
  obtain ⟨p0, comps⟩ := ttGlyph
  obtain ⟨ds, hc, hds⟩ := ctgp_soft_failure R ch p0 h1 h2
  simp only at hp0
  subst hp0
  cases comps with
  | nil =>
    refine ⟨⟨Option.none, []⟩, ds, ?_, rfl, hds⟩
    unfold compileGlyphInstructions
    rw [hfind]
    simp [hR, hc, exceptBind_ok, exceptPure, TTGlyph.isComposite]
  | cons c cs =>
    refine ⟨⟨Option.none, (set_composite_flags auto glyph (c :: cs)).1⟩,
      ds ++ (set_composite_flags auto glyph (c :: cs)).2, ?_, rfl, ?_⟩
    · unfold compileGlyphInstructions
      rw [hfind]
      simp [hR, hc, exceptBind_ok, exceptPure, TTGlyph.isComposite]
    · exact fun h => hds (List.append_eq_nil.mp h).1

/-- **C1 (amended)**: for a glyph present in the UFO whose glyph-level
hint record is `R` and whose fontTools glyph starts without a program,
`compileGlyphInstructions` attaches a program iff `R.formatVersion = "1"`,
the stored hash `R.id` equals the freshly computed hash, and `R.assembly`
is a non-empty string.  When the hash or assembly condition fails, no
program is attached and only diagnostics are emitted; but when the format
condition fails, a hard error (`TypeError` / `NotImplementedError`) is
raised instead of a diagnostic. -/
theorem c1_program_attach_iff (autoUseMyMetrics : Bool) (ufo : List Glyph)
    (computedHash : String) (ttGlyph : TTGlyph) (name : String)
    (glyph : Glyph) (R : GlyphTTData)
    (hfind : ufo.find? (fun g => g.name = name) = some glyph)
    (hR : glyph.lib.ttdata = some R)
    (hp0 : ttGlyph.program = Option.none) :
    ((∃ g ds, compileGlyphInstructions autoUseMyMetrics ufo computedHash ttGlyph name =
        .ok (g, ds) ∧ g.program.isSome = true) ↔
      (R.formatVersion = .str "1" ∧ R.id = some computedHash ∧
        truthyOptStr R.assembly = true)) ∧
    (R.formatVersion ≠ .str "1" →
      ∃ e, compileGlyphInstructions autoUseMyMetrics ufo computedHash ttGlyph name =
        .error e) ∧
    ((R.formatVersion = .str "1" ∧
        ¬(R.id = some computedHash ∧ truthyOptStr R.assembly = true)) →
      ∃ g ds, compileGlyphInstructions autoUseMyMetrics ufo computedHash ttGlyph name =
        .ok (g, ds) ∧ g.program = Option.none ∧ ds ≠ []) := by
  refine ⟨⟨?_, ?_⟩,
    fun hfmt => cgi_format_error autoUseMyMetrics ufo computedHash ttGlyph name
      glyph R hfind hR hfmt,
    fun h => cgi_soft_failure autoUseMyMetrics ufo computedHash ttGlyph name
      glyph R hfind hR hp0 h.1 h.2⟩
  · rintro ⟨g, ds, hok, hsome⟩
    by_cases hfmt : R.formatVersion = .str "1"
    · by_cases hcond : R.id = some computedHash ∧ truthyOptStr R.assembly = true
      · exact ⟨hfmt, hcond.1, hcond.2⟩
      · obtain ⟨g2, ds2, hok2, hnone, -⟩ :=
          cgi_soft_failure autoUseMyMetrics ufo computedHash ttGlyph name
            glyph R hfind hR hp0 hfmt hcond
        rw [hok] at hok2
        obtain ⟨hg, -⟩ : g = g2 ∧ ds = ds2 := by simpa using hok2
        rw [hg, hnone] at hsome
        simp at hsome
    · obtain ⟨e, herr⟩ :=
        cgi_format_error autoUseMyMetrics ufo computedHash ttGlyph name
          glyph R hfind hR hfmt
      rw [hok] at herr
      simp at herr
  · rintro ⟨h1, h2, h3⟩
    obtain ⟨asm, ha, hane⟩ : ∃ asm, R.assembly = some asm ∧ asm ≠ "" := by
      cases hA : R.assembly with
      | none => rw [hA] at h3; simp [truthyOptStr] at h3
      | some a =>
        refine ⟨a, rfl, ?_⟩
        rw [hA] at h3
        simpa [truthyOptStr] using h3
    obtain ⟨g, ds, hok, hprog⟩ :=
      cgi_attach autoUseMyMetrics ufo computedHash ttGlyph name glyph R asm
        hfind hR h1 h2 ha hane
    exact ⟨g, ds, hok, by simp [hprog]⟩

/-- Witness for C1 (amended): a record with format `"1"`, matching hash
`"h"` and assembly `"SVTCA"` on a simple glyph gets a program attached. -/
theorem c1_program_attach_iff_witness :
    ∃ g ds, compileGlyphInstructions false
      [⟨"a", [], ⟨some ⟨.str "1", some "h", some "SVTCA"⟩, Option.none, Option.none⟩⟩]
      "h" ⟨Option.none, []⟩ "a" = .ok (g, ds) ∧ g.program.isSome = true :=
  ((c1_program_attach_iff false
      [⟨"a", [], ⟨some ⟨.str "1", some "h", some "SVTCA"⟩, Option.none, Option.none⟩⟩]
      "h" ⟨Option.none, []⟩ "a"
      ⟨"a", [], ⟨some ⟨.str "1", some "h", some "SVTCA"⟩, Option.none, Option.none⟩⟩
      ⟨.str "1", some "h", some "SVTCA"⟩
      (by decide) rfl rfl).1).mpr ⟨rfl, rfl, by decide⟩

/-- Counterexample to C1 as stated: on a record whose `formatVersion` is
`"2"` (hash matching, assembly non-empty), `compileGlyphInstructions` does
not merely emit a diagnostic and attach nothing — it raises a hard
`NotImplementedError` that aborts the build. -/
theorem c1_hard_error_counterexample :
    compileGlyphInstructions false
      [⟨"bad", [], ⟨some ⟨.str "2", some "h", some "SVTCA"⟩, Option.none, Option.none⟩⟩]
      "h" ⟨Option.none, []⟩ "bad" = .error .notImplementedError := by
  rfl

theorem foldl_max_init_le (l : List Nat) (a : Nat) : a ≤ l.foldl max a := by
  induction l generalizing a with
  | nil => exact le_refl a
  | cons x xs ih => exact le_trans (le_max_left a x) (ih (max a x))

theorem mem_le_foldl_max (x : Nat) :
    ∀ (l : List Nat) (a : Nat), x ∈ l → x ≤ l.foldl max a
  | [], _, hx => absurd hx (List.not_mem_nil x)
  | y :: ys, a, hx => by
    rcases List.mem_cons.mp hx with h | h
    · subst h
      exact le_trans (le_max_right a x) (foldl_max_init_le ys _)
    · exact mem_le_foldl_max x ys (max a y) h

theorem foldl_max_eq_or_mem :
    ∀ (l : List Nat) (a : Nat), l.foldl max a = a ∨ l.foldl max a ∈ l
  | [], _ => Or.inl rfl
  | y :: ys, a => by
    rcases foldl_max_eq_or_mem ys (max a y) with h | h
    · rcases max_cases a y with ⟨hm, -⟩ | ⟨hm, -⟩
      · exact Or.inl (by rw [List.foldl_cons, h, hm])
      · refine Or.inr ?_
        rw [List.foldl_cons, h, hm]
        exact List.mem_cons_self y ys
    · exact Or.inr (List.mem_cons_of_mem y h)

theorem mem_programSizes (assemble : String → List Nat) (glyphs : List TTGlyph)
    (g : TTGlyph) (p : Program) (hg : g ∈ glyphs) (hp : g.program = some p) :
    (p.getBytecode assemble).length ∈ programSizes assemble glyphs := by
  unfold programSizes
  exact List.mem_map_of_mem _ (List.mem_filterMap.mpr ⟨g, hg, hp⟩)

theorem programSizes_mem (assemble : String → List Nat) (glyphs : List TTGlyph)
    (x : Nat) (hx : x ∈ programSizes assemble glyphs) :
    ∃ g ∈ glyphs, ∃ p, g.program = some p ∧
      (p.getBytecode assemble).length = x := by
  unfold programSizes at hx
  obtain ⟨p, hp, rfl⟩ := List.mem_map.mp hx
  obtain ⟨g, hg, hgp⟩ := List.mem_filterMap.mp hp
  exact ⟨g, hg, p, hgp, rfl⟩

theorem copy_maxp_fields_spec (d : FontTTData) (m : MaxpTable) :
    copy_maxp_fields d m =
      { maxStorage := d.maxStorage.getD m.maxStorage,
        maxFunctionDefs := d.maxFunctionDefs.getD m.maxFunctionDefs,
        maxInstructionDefs := d.maxInstructionDefs.getD m.maxInstructionDefs,
        maxStackElements := d.maxStackElements.getD m.maxStackElements,
        maxZones := d.maxZones.getD m.maxZones,
        maxTwilightPoints := d.maxTwilightPoints.getD m.maxTwilightPoints,
        maxSizeOfInstructions := m.maxSizeOfInstructions } := by
  unfold copy_maxp_fields
  cases d.maxStorage <;> cases d.maxFunctionDefs <;>
    cases d.maxInstructionDefs <;> cases d.maxStackElements <;>
    cases d.maxZones <;> cases d.maxTwilightPoints <;> rfl

/-- **C5**: `update_maxp` always sets `maxSizeOfInstructions` to the
maximum bytecode length over the glyphs that carry a program (`0` when
none does), independently of the authored record and of the prior maxp
value; each of the six named capacity fields is copied verbatim when
present in a truthy font-level record and left at its existing value
otherwise. -/
theorem c5_update_maxp (fontLib : Option FontTTData) (glyphs : List TTGlyph)
    (assemble : String → List Nat) (maxp : MaxpTable) :
    (∀ g ∈ glyphs, ∀ p, g.program = some p →
      Int.ofNat (p.getBytecode assemble).length ≤
        (update_maxp fontLib glyphs assemble maxp).maxSizeOfInstructions) ∧
    ((update_maxp fontLib glyphs assemble maxp).maxSizeOfInstructions = 0 ∨
      ∃ g ∈ glyphs, ∃ p, g.program = some p ∧
        Int.ofNat (p.getBytecode assemble).length =
          (update_maxp fontLib glyphs assemble maxp).maxSizeOfInstructions) ∧
    (∀ (fontLib2 : Option FontTTData) (maxp2 : MaxpTable),
      (update_maxp fontLib2 glyphs assemble maxp2).maxSizeOfInstructions =
        (update_maxp fontLib glyphs assemble maxp).maxSizeOfInstructions) ∧
    (∀ d, fontLib = some d → d.isEmptyDict = false →
      (update_maxp fontLib glyphs assemble maxp).maxStorage =
          d.maxStorage.getD maxp.maxStorage ∧
      (update_maxp fontLib glyphs assemble maxp).maxFunctionDefs =
          d.maxFunctionDefs.getD maxp.maxFunctionDefs ∧
      (update_maxp fontLib glyphs assemble maxp).maxInstructionDefs =
          d.maxInstructionDefs.getD maxp.maxInstructionDefs ∧
      (update_maxp fontLib glyphs assemble maxp).maxStackElements =
          d.maxStackElements.getD maxp.maxStackElements ∧
      (update_maxp fontLib glyphs assemble maxp).maxZones =
          d.maxZones.getD maxp.maxZones ∧
      (update_maxp fontLib glyphs assemble maxp).maxTwilightPoints =
          d.maxTwilightPoints.getD maxp.maxTwilightPoints) ∧
    ((fontLib = Option.none ∨ ∃ d, fontLib = some d ∧ d.isEmptyDict = true) →
      (update_maxp fontLib glyphs assemble maxp).maxStorage = maxp.maxStorage ∧
      (update_maxp fontLib glyphs assemble maxp).maxZones = maxp.maxZones) := by
  have hsize : (update_maxp fontLib glyphs assemble maxp).maxSizeOfInstructions =
      Int.ofNat ((programSizes assemble glyphs).foldl max 0) := by
    unfold update_maxp
    rfl
  refine ⟨?_, ?_, ?_, ?_, ?_⟩
  · intro g hg p hp
    rw [hsize]
    exact Int.ofNat_le.mpr
      (mem_le_foldl_max _ _ 0 (mem_programSizes assemble glyphs g p hg hp))
  · rcases foldl_max_eq_or_mem (programSizes assemble glyphs) 0 with h | h
    · exact Or.inl (by rw [hsize, h]; rfl)
    · obtain ⟨g, hg, p, hp, hlen⟩ := programSizes_mem assemble glyphs _ h
      exact Or.inr ⟨g, hg, p, hp, by rw [hsize, hlen]⟩
  · intro fontLib2 maxp2
    rw [hsize]
    unfold update_maxp
    rfl
  · rintro d rfl hne
    unfold update_maxp
    simp [hne, copy_maxp_fields_spec]
  · rintro (rfl | ⟨d, rfl, hd⟩)
    · exact ⟨rfl, rfl⟩
    · unfold update_maxp
      simp [hd]

/-- Witness for C5: one glyph with a 3-byte program gives
`maxSizeOfInstructions = 3`-compatible bound, and the authored
`maxStorage = 123` is copied. -/
theorem c5_update_maxp_witness :
    Int.ofNat 3 ≤
      (update_maxp (some fontLibEx) [glyphEx] (fun _ => []) maxpEx).maxSizeOfInstructions ∧
    (update_maxp (some fontLibEx) [glyphEx] (fun _ => []) maxpEx).maxStorage = 123 :=
  ⟨(c5_update_maxp (some fontLibEx) [glyphEx] (fun _ => []) maxpEx).1 glyphEx
      (List.mem_cons_self glyphEx []) (.fromBytecode [1, 2, 3]) rfl,
   ((c5_update_maxp (some fontLibEx) [glyphEx] (fun _ => []) maxpEx).2.2.2.1
      fontLibEx rfl rfl).1⟩

/-- Helper: closed form of `update_maxp` on a present record, whether the
record dictionary is truthy or not. -/
theorem update_maxp_some_spec (d : FontTTData) (glyphs : List TTGlyph)
    (assemble : String → List Nat) (maxp : MaxpTable) :
    update_maxp (some d) glyphs assemble maxp =
      { maxStorage := d.maxStorage.getD maxp.maxStorage,
        maxFunctionDefs := d.maxFunctionDefs.getD maxp.maxFunctionDefs,
        maxInstructionDefs := d.maxInstructionDefs.getD maxp.maxInstructionDefs,
        maxStackElements := d.maxStackElements.getD maxp.maxStackElements,
        maxZones := d.maxZones.getD maxp.maxZones,
        maxTwilightPoints := d.maxTwilightPoints.getD maxp.maxTwilightPoints,
        maxSizeOfInstructions :=
          Int.ofNat ((programSizes assemble glyphs).foldl max 0) } := by
  unfold update_maxp
  by_cases hd : d.isEmptyDict
  · have hall : d.maxStorage = Option.none ∧ d.maxFunctionDefs = Option.none ∧
        d.maxInstructionDefs = Option.none ∧ d.maxStackElements = Option.none ∧
        d.maxZones = Option.none ∧ d.maxTwilightPoints = Option.none := by
      unfold FontTTData.isEmptyDict at hd
      simp only [Bool.and_eq_true, Option.isNone_iff_eq_none] at hd
      obtain ⟨⟨⟨⟨⟨⟨⟨⟨⟨⟨-, -⟩, -⟩, -⟩, h1⟩, h2⟩, h3⟩, h4⟩, h5⟩, h6⟩, -⟩ := hd
      exact ⟨h1, h2, h3, h4, h5, h6⟩
    obtain ⟨h1, h2, h3, h4, h5, h6⟩ := hall
    simp [hd, h1, h2, h3, h4, h5, h6]
  · simp only [hd, if_false, Bool.false_eq_true, copy_maxp_fields_spec]

/-- **C4 (amended)**: the global program compiler, the per-glyph program
compiler and the CVT builder invoke the Format Guard before reading any
other field of the record: given a truthy record whose `formatVersion` is
missing, non-string or unsupported, each of them propagates the hard
format error and produces no table, no program and no diagnostics.  The
interpreter limits aggregator (`update_maxp`) does not invoke the guard:
its result is entirely independent of the record's `formatVersion` and it
copies the capacity fields regardless. -/
theorem c4_format_guard_usage :
    (∀ (d : FontTTData) (key : ProgKey), d.isEmptyDict = false →
      d.formatVersion ≠ .str "1" →
      ∃ e, compile_program (some d) key = .error e ∧
        (e = PyError.typeError ∨ e = PyError.notImplementedError)) ∧
    (∀ (R : GlyphTTData) (ch : String) (p0 : Option Program),
      R.formatVersion ≠ .str "1" →
      ∃ e, compile_tt_glyph_program R ch p0 = .error e ∧
        (e = PyError.typeError ∨ e = PyError.notImplementedError)) ∧
    (∀ d : FontTTData, d.isEmptyDict = false → d.formatVersion ≠ .str "1" →
      ∃ e, setupTable_cvt (some d) = .error e ∧
        (e = PyError.typeError ∨ e = PyError.notImplementedError)) ∧
    (∀ (d : FontTTData) (glyphs : List TTGlyph) (assemble : String → List Nat)
        (maxp : MaxpTable) (fv : PyVal),
      update_maxp (some { d with formatVersion := fv }) glyphs assemble maxp =
        update_maxp (some d) glyphs assemble maxp) := by
  have hguard : ∀ fv : PyVal, fv ≠ .str "1" →
      ∃ e, check_tt_data_format fv = .error e ∧
        (e = PyError.typeError ∨ e = PyError.notImplementedError) := by
    intro fv hfv
    cases fv with
    | str s =>
      have hs : s ≠ "1" := by rintro rfl; exact hfv rfl
      exact ⟨.notImplementedError, by simp [check_tt_data_format, hs], Or.inr rfl⟩
    | int n => exact ⟨.typeError, rfl, Or.inl rfl⟩
    | none => exact ⟨.typeError, rfl, Or.inl rfl⟩
  refine ⟨?_, ?_, ?_, ?_⟩
  · intro d key hne hfv
    obtain ⟨e, he, hk⟩ := hguard d.formatVersion hfv
    refine ⟨e, ?_, hk⟩
    unfold compile_program
    simp [hne, he, exceptBind_error]
  · intro R ch p0 hfv
    exact ctgp_format_error R ch p0 hfv
  · intro d hne hfv
    obtain ⟨e, he, hk⟩ := hguard d.formatVersion hfv
    refine ⟨e, ?_, hk⟩
    unfold setupTable_cvt
    simp [hne, he, exceptBind_error]
  · intro d glyphs assemble maxp fv
    rw [update_maxp_some_spec, update_maxp_some_spec]

/-- Witness for C4 (amended) at concrete bad-format records. -/
theorem c4_format_guard_usage_witness :
    (∃ e, compile_program (some badFmtLib) .fontProgram = .error e ∧
      (e = PyError.typeError ∨ e = PyError.notImplementedError)) ∧
    (∃ e, compile_tt_glyph_program ⟨.int 1, some "h", some "SVTCA"⟩ "h"
        Option.none = .error e ∧
      (e = PyError.typeError ∨ e = PyError.notImplementedError)) ∧
    (∃ e, setupTable_cvt (some badFmtLib) = .error e ∧
      (e = PyError.typeError ∨ e = PyError.notImplementedError)) ∧
    update_maxp (some { badFmtLib with formatVersion := .str "1" }) [] sampleAssemble maxpEx =
      update_maxp (some badFmtLib) [] sampleAssemble maxpEx :=
  ⟨c4_format_guard_usage.1 badFmtLib .fontProgram rfl (by decide),
   c4_format_guard_usage.2.1 ⟨.int 1, some "h", some "SVTCA"⟩ "h" Option.none (by decide),
   c4_format_guard_usage.2.2.1 badFmtLib rfl (by decide),
   c4_format_guard_usage.2.2.2 badFmtLib [] sampleAssemble maxpEx (.str "1")⟩

/-- Counterexample to C4 as stated: `update_maxp` consumes a record whose
`formatVersion` is the non-string `1` without raising anything — it
copies the authored `maxStorage = 123` and recomputes
`maxSizeOfInstructions`, so the limits aggregator never calls the Format
Guard. -/
theorem c4_no_guard_counterexample :
    update_maxp (some badFmtLib) [] sampleAssemble maxpEx =
      ⟨123, 2, 3, 4, 5, 6, 0⟩ := by
  rfl

/-- **C6 (amended)**: when `compileGlyphInstructions` completes normally
on a composite glyph present in the UFO, the glyph never retains a falsy
program — one with neither assembly text nor bytecode; any such program is
stripped before flag resolution.  (A program whose assembly text is
non-empty is kept even when its compiled bytecode is empty, and the skip
path for a glyph absent from the UFO leaves a pre-existing program
untouched.) -/
theorem c6_composite_no_falsy_program (autoUseMyMetrics : Bool)
    (ufo : List Glyph) (ch : String) (ttGlyph : TTGlyph) (name : String)
    (glyph : Glyph) (g : TTGlyph) (ds : List Diag)
    (hfind : ufo.find? (fun gl => gl.name = name) = some glyph)
    (hok : compileGlyphInstructions autoUseMyMetrics ufo ch ttGlyph name =
      .ok (g, ds))
    (hcomp : g.isComposite = true) :
    ∀ p, g.program = some p → p.truthy = true := by
  obtain ⟨p0, comps⟩ := ttGlyph
  unfold compileGlyphInstructions at hok
  rw [hfind] at hok
  cases hT : glyph.lib.ttdata with
  | none =>
    simp only [hT] at hok
    cases comps with
    | nil =>
      obtain ⟨hg, -⟩ : (⟨p0, []⟩ : TTGlyph) = g ∧ [] = ds := by
        simpa [TTGlyph.isComposite, exceptBind_ok, exceptPure] using hok
      rw [← hg] at hcomp
      simp [TTGlyph.isComposite] at hcomp
    | cons c cs =>
      cases hp : p0 with
      | none =>
        obtain ⟨hg, -⟩ := by
          simpa [TTGlyph.isComposite, exceptBind_ok, exceptPure, hp] using hok
        intro p hgp
        rw [← hg] at hgp
        simp at hgp
      | some q =>
        cases hq : q.truthy with
        | false =>
          obtain ⟨hg, -⟩ := by
            simpa [TTGlyph.isComposite, exceptBind_ok, exceptPure, hp, hq] using hok
          intro p hgp
          rw [← hg] at hgp
          simp at hgp
        | true =>
          obtain ⟨hg, -⟩ := by
            simpa [TTGlyph.isComposite, exceptBind_ok, exceptPure, hp, hq] using hok
          intro p hgp
          rw [← hg] at hgp
          simp only [TTGlyph.program] at hgp
          injection hgp with hqp
          rw [← hqp]
          exact hq
  | some R =>
    simp only [hT] at hok
    cases hc : compile_tt_glyph_program R ch p0 with
    | error e => rw [hc] at hok; simp [exceptBind_error] at hok
    | ok v =>
      obtain ⟨p1, ds1⟩ := v
      rw [hc] at hok
      cases comps with
      | nil =>
        obtain ⟨hg, -⟩ : (⟨p1, []⟩ : TTGlyph) = g ∧ ds1 = ds := by
          simpa [TTGlyph.isComposite, exceptBind_ok, exceptPure] using hok
        rw [← hg] at hcomp
        simp [TTGlyph.isComposite] at hcomp
      | cons c cs =>
        cases hp : p1 with
        | none =>
          obtain ⟨hg, -⟩ := by
            simpa [TTGlyph.isComposite, exceptBind_ok, exceptPure, hp] using hok
          intro p hgp
          rw [← hg] at hgp
          simp at hgp
        | some q =>
          cases hq : q.truthy with
          | false =>
            obtain ⟨hg, -⟩ := by
              simpa [TTGlyph.isComposite, exceptBind_ok, exceptPure, hp, hq] using hok
            intro p hgp
            rw [← hg] at hgp
            simp at hgp
          | true =>
            obtain ⟨hg, -⟩ := by
              simpa [TTGlyph.isComposite, exceptBind_ok, exceptPure, hp, hq] using hok
            intro p hgp
            rw [← hg] at hgp
            simp only [TTGlyph.program] at hgp
            injection hgp with hqp
            rw [← hqp]
            exact hq

/-- Witness for C6 (amended): a composite glyph in the UFO whose record
attaches program `"SVTCA"` ends with a truthy program. -/
theorem c6_composite_no_falsy_program_witness :
    Program.truthy (.fromAsm "SVTCA") = true :=
  c6_composite_no_falsy_program false
    [⟨"w", [Option.none],
      ⟨some ⟨.str "1", some "h", some "SVTCA"⟩, Option.none, Option.none⟩⟩]
    "h" ⟨Option.none, [0]⟩ "w"
    ⟨"w", [Option.none],
      ⟨some ⟨.str "1", some "h", some "SVTCA"⟩, Option.none, Option.none⟩⟩
    ⟨some (.fromAsm "SVTCA"), [4]⟩ [] rfl rfl rfl (.fromAsm "SVTCA") rfl

/-- Counterexample to C6 as stated: with the whitespace assembly `" "`
(a non-empty string) the per-glyph compiler attaches a program whose
compiled bytecode is empty; its assembly text is non-empty, so the
composite keeps it — the glyph retains a zero-length (zero-byte) attached
program. -/
theorem c6_zero_bytecode_counterexample :
    compileGlyphInstructions false
      [⟨"w", [Option.none],
        ⟨some ⟨.str "1", some "h", some " "⟩, Option.none, Option.none⟩⟩]
      "h" ⟨Option.none, [0]⟩ "w" =
      .ok (⟨some (.fromAsm " "), [4]⟩, []) ∧
    TTGlyph.isComposite ⟨some (.fromAsm " "), [4]⟩ = true ∧
    (Program.getBytecode sampleAssemble (.fromAsm " ")).length = 0 := by
  exact ⟨rfl, rfl, by decide⟩

/-- Helper: the main chain of the loop body only touches the
`ROUND_XY_TO_GRID` (bit 2) and `USE_MY_METRICS` (bit 9) bits; bit 10
(`OVERLAP_COMPOUND`) is preserved. -/
theorem cfMain_bit10 (auto : Bool) (glib : GlyphLib) (ident : Option String)
    (f : Nat) (u : Option String) :
    ((componentFlagsMain auto glib ident f u).1).testBit 10 = f.testBit 10 := by
  cases ident with
  | none => simp [componentFlagsMain, testBit_setFlag, bit4_10]
  | some cid =>
    cases hol : glib.objectLibs with
    | none => simp [componentFlagsMain, hol]
    | some ols =>
      cases hlk : ols.lookup cid with
      | none => simp [componentFlagsMain, hol, hlk]
      | some clib =>
        by_cases h1 : clib.roundOffsetToGrid.isSome || clib.useMyMetrics.isSome
        · by_cases h2 : clib.roundOffsetToGrid.getD true <;>
            by_cases h3 : !auto && clib.useMyMetrics.getD false <;>
            by_cases h4 : truthyOptStr u <;>
            simp [componentFlagsMain, hol, hlk, h1, h2, h3, h4,
              testBit_setFlag, testBit_clearFlag, bit4_10, bit512_10]
        · simp [componentFlagsMain, hol, hlk, h1]

/-- Helper: bit 10 after the overlap block. -/
theorem cfOverlap_bit10 (glib : GlyphLib) (i : Nat) (f : Nat) :
    ((componentFlagsOverlap glib i f).1).testBit 10 =
      (if i = 0 && glib.overlap.isSome then glib.overlap.getD false
       else f.testBit 10) := by
  unfold componentFlagsOverlap
  by_cases h : i = 0 && glib.overlap.isSome
  · by_cases h2 : glib.overlap.getD false <;>
      simp [h, h2, testBit_setFlag, testBit_clearFlag, bit1024_10]
  · simp [h]

/-- Helper: bit 9 is untouched by the overlap block. -/
theorem cfOverlap_bit9 (glib : GlyphLib) (i : Nat) (f : Nat) :
    ((componentFlagsOverlap glib i f).1).testBit 9 = f.testBit 9 := by
  unfold componentFlagsOverlap
  by_cases h : i = 0 && glib.overlap.isSome
  · by_cases h2 : glib.overlap.getD false <;>
      simp [h, h2, testBit_setFlag, testBit_clearFlag, bit1024_9]
  · simp [h]

/-- Helper: the overlap block emits no log record. -/
theorem cfOverlap_diags (glib : GlyphLib) (i : Nat) (f : Nat) :
    (componentFlagsOverlap glib i f).2 = [] := by
  unfold componentFlagsOverlap
  by_cases h : i = 0 && glib.overlap.isSome
  · by_cases h2 : glib.overlap.getD false <;> simp [h, h2]
  · simp [h]

/-- Helper: bit 10 after one full loop iteration. -/
theorem flags_one_bit10 (auto : Bool) (glib : GlyphLib) (i : Nat)
    (ident : Option String) (f : Nat) (u : Option String) :
    ((flags_one auto glib i ident f u).1).testBit 10 =
      (if i = 0 && glib.overlap.isSome then glib.overlap.getD false
       else f.testBit 10) := by
  unfold flags_one
  rw [cfOverlap_bit10, cfMain_bit10]

/-- Helper: in the loop, bit 10 of every component processed with a
positive index is preserved. -/
theorem scfLoop_bit10 (auto : Bool) (glib : GlyphLib) :
    ∀ (ids : List (Option String)) (fs : List Nat) (i j : Nat)
      (u : Option String), ids.length = fs.length → 1 ≤ i + j →
      ((scfLoop auto glib ids fs i u).1.getD j 0).testBit 10 =
        (fs.getD j 0).testBit 10
  | [], fs, i, j, u, hlen, hij => by
    cases fs with
    | nil => rfl
    | cons c cs => simp at hlen
  | _ :: _, [], i, j, u, hlen, hij => by simp at hlen
  | ident :: ids, c :: cs, i, j, u, hlen, hij => by
    cases j with
    | zero =>
      have hi : i ≠ 0 := by omega
      show ((flags_one auto glib i ident c u).1).testBit 10 = c.testBit 10
      rw [flags_one_bit10]
      simp [hi]
    | succ j =>
      show ((scfLoop auto glib ids cs (i + 1)
          (flags_one auto glib i ident c u).2.1).1.getD j 0).testBit 10 =
        (cs.getD j 0).testBit 10
      exact scfLoop_bit10 auto glib ids cs (i + 1) j _
        (by simpa using hlen) (by omega)

/-- **C7**: the Composite Flag Resolver never sets (indeed never touches)
`OVERLAP_COMPOUND` on any component of index greater than 0; on component
index 0 — when component counts match, so that flags are assigned at all —
it sets or clears `OVERLAP_COMPOUND` according to the glyph-level overlap
flag when present, and leaves it untouched when the flag is absent. -/
theorem c7_overlap_compound (autoUseMyMetrics : Bool) (glyph : Glyph)
    (ttcomps : List Nat) :
    (∀ i, 1 ≤ i →
      hasFlag ((set_composite_flags autoUseMyMetrics glyph ttcomps).1.getD i 0)
          OVERLAP_COMPOUND =
        hasFlag (ttcomps.getD i 0) OVERLAP_COMPOUND) ∧
    (ttcomps.length = glyph.components.length → ttcomps ≠ [] →
      (glyph.lib.overlap = some true →
        hasFlag ((set_composite_flags autoUseMyMetrics glyph ttcomps).1.getD 0 0)
          OVERLAP_COMPOUND = true) ∧
      (glyph.lib.overlap = some false →
        hasFlag ((set_composite_flags autoUseMyMetrics glyph ttcomps).1.getD 0 0)
          OVERLAP_COMPOUND = false) ∧
      (glyph.lib.overlap = Option.none →
        hasFlag ((set_composite_flags autoUseMyMetrics glyph ttcomps).1.getD 0 0)
          OVERLAP_COMPOUND =
          hasFlag (ttcomps.getD 0 0) OVERLAP_COMPOUND)) := by
  constructor
  · intro i hi
    unfold set_composite_flags
    by_cases hlen : ttcomps.length ≠ glyph.components.length
    · simp [hlen]
    · push_neg at hlen
      simp only [hlen, ne_eq, not_true_eq_false, if_false]
      rw [hasFlag_OVERLAP_COMPOUND, hasFlag_OVERLAP_COMPOUND]
      exact scfLoop_bit10 autoUseMyMetrics glyph.lib glyph.components ttcomps
        0 i Option.none hlen.symm (by omega)
  · intro hlen hne
    rcases ttcomps with - | ⟨c, cs⟩
    · exact absurd rfl hne
    rcases hids : glyph.components with - | ⟨id0, ids⟩
    · rw [hids] at hlen; simp at hlen
    have hlen2 : (c :: cs).length = (id0 :: ids).length := by
      rw [← hids]; exact hlen
    have hout : (set_composite_flags autoUseMyMetrics glyph (c :: cs)).1.getD 0 0 =
        (flags_one autoUseMyMetrics glyph.lib 0 id0 c Option.none).1 := by
      unfold set_composite_flags
      rw [hids]
      simp only [hlen2, ne_eq, not_true_eq_false, if_false]
      rfl
    refine ⟨fun hov => ?_, fun hov => ?_, fun hov => ?_⟩ <;>
      rw [hout, hasFlag_OVERLAP_COMPOUND, flags_one_bit10] <;>
      simp [hov]
    rw [hasFlag_OVERLAP_COMPOUND]

/-- Witness for C7: a two-component composite with `overlap = True`: the
resolver sets bit 10 on component 0 and leaves component 1 (which started
with bit 10 clear) untouched. -/
theorem c7_overlap_compound_witness :
    hasFlag ((set_composite_flags false
        ⟨"g", [Option.none, Option.none],
          ⟨Option.none, Option.none, some true⟩⟩ [0, 0]).1.getD 1 0)
      OVERLAP_COMPOUND = hasFlag 0 OVERLAP_COMPOUND ∧
    hasFlag ((set_composite_flags false
        ⟨"g", [Option.none, Option.none],
          ⟨Option.none, Option.none, some true⟩⟩ [0, 0]).1.getD 0 0)
      OVERLAP_COMPOUND = true :=
  ⟨(c7_overlap_compound false
      ⟨"g", [Option.none, Option.none], ⟨Option.none, Option.none, some true⟩⟩
      [0, 0]).1 1 (by decide),
   ((c7_overlap_compound false
      ⟨"g", [Option.none, Option.none], ⟨Option.none, Option.none, some true⟩⟩
      [0, 0]).2 (by decide) (by decide)).1 rfl⟩

/-- Helper: a component that does not enter the metrics branch leaves the
`use_my_metrics_comp` state unchanged and emits no warning. -/
theorem cfMain_not_claimant (auto : Bool) (glib : GlyphLib)
    (ident : Option String) (f : Nat) (u : Option String)
    (h : isClaimant auto glib ident = false) :
    (componentFlagsMain auto glib ident f u).2.1 = u ∧
    warningCount (componentFlagsMain auto glib ident f u).2.2 = 0 := by
  cases ident with
  | none => simp [componentFlagsMain, warningCount]
  | some cid =>
    cases hol : glib.objectLibs with
    | none => simp [componentFlagsMain, hol, warningCount]
    | some ols =>
      cases hlk : ols.lookup cid with
      | none => simp [componentFlagsMain, hol, hlk, warningCount]
      | some clib =>
        by_cases h1 : clib.roundOffsetToGrid.isSome || clib.useMyMetrics.isSome
        · cases h3 : (!auto && clib.useMyMetrics.getD false) with
          | true =>
            rw [isClaimant] at h
            simp only [hol, hlk, h1, h3] at h
            simp at h
          | false =>
            by_cases h2 : clib.roundOffsetToGrid.getD true <;>
              simp [componentFlagsMain, hol, hlk, h1, h2, h3, warningCount]
        · simp [componentFlagsMain, hol, hlk, h1, warningCount]

/-- Helper: a claimant processed while the state is already truthy is
cleared (bit 9 ends `false`), leaves the state unchanged and emits exactly
one warning. -/
theorem cfMain_claimant_claimed (auto : Bool) (glib : GlyphLib)
    (ident : Option String) (f : Nat) (u : Option String)
    (h : isClaimant auto glib ident = true) (hu : truthyOptStr u = true) :
    ((componentFlagsMain auto glib ident f u).1).testBit 9 = false ∧
    (componentFlagsMain auto glib ident f u).2.1 = u ∧
    warningCount (componentFlagsMain auto glib ident f u).2.2 = 1 := by
  cases ident with
  | none => rw [isClaimant] at h; exact absurd h (by simp)
  | some cid =>
    cases hol : glib.objectLibs with
    | none => rw [isClaimant] at h; simp only [hol] at h; exact absurd h (by simp)
    | some ols =>
      cases hlk : ols.lookup cid with
      | none =>
        rw [isClaimant] at h; simp only [hol, hlk] at h; exact absurd h (by simp)
      | some clib =>
        rw [isClaimant] at h
        simp only [hol, hlk, Bool.and_eq_true] at h
        obtain ⟨h1, h3⟩ := h
        by_cases h2 : clib.roundOffsetToGrid.getD true <;>
          simp [componentFlagsMain, hol, hlk, h1, h3, h2, hu, warningCount,
            testBit_clearFlag, testBit_setFlag, bit4_9, bit512_9]

/-- Helper: a claimant processed while the state is falsy gets bit 9 set,
records its identifier in the state and emits no warning. -/
theorem cfMain_claimant_free (auto : Bool) (glib : GlyphLib)
    (ident : Option String) (f : Nat) (u : Option String)
    (h : isClaimant auto glib ident = true) (hu : truthyOptStr u = false) :
    ((componentFlagsMain auto glib ident f u).1).testBit 9 = true ∧
    (componentFlagsMain auto glib ident f u).2.1 = ident ∧
    warningCount (componentFlagsMain auto glib ident f u).2.2 = 0 := by
  cases ident with
  | none => rw [isClaimant] at h; exact absurd h (by simp)
  | some cid =>
    cases hol : glib.objectLibs with
    | none => rw [isClaimant] at h; simp only [hol] at h; exact absurd h (by simp)
    | some ols =>
      cases hlk : ols.lookup cid with
      | none =>
        rw [isClaimant] at h; simp only [hol, hlk] at h; exact absurd h (by simp)
      | some clib =>
        rw [isClaimant] at h
        simp only [hol, hlk, Bool.and_eq_true] at h
        obtain ⟨h1, h3⟩ := h
        by_cases h2 : clib.roundOffsetToGrid.getD true <;>
          simp [componentFlagsMain, hol, hlk, h1, h3, h2, hu, warningCount,
            testBit_clearFlag, testBit_setFlag, bit4_9, bit512_9]

/-- Helper: `flags_one` versions of the three claimant lemmas (the overlap
block touches only bit 10 and emits nothing). -/
theorem flags_one_not_claimant (auto : Bool) (glib : GlyphLib) (i : Nat)
    (ident : Option String) (f : Nat) (u : Option String)
    (h : isClaimant auto glib ident = false) :
    (flags_one auto glib i ident f u).2.1 = u ∧
    warningCount (flags_one auto glib i ident f u).2.2 = 0 := by
  obtain ⟨ha, hb⟩ := cfMain_not_claimant auto glib ident f u h
  refine ⟨ha, ?_⟩
  show warningCount ((componentFlagsMain auto glib ident f u).2.2 ++
    (componentFlagsOverlap glib i (componentFlagsMain auto glib ident f u).1).2) = 0
  rw [cfOverlap_diags, List.append_nil]
  exact hb

theorem flags_one_claimant_claimed (auto : Bool) (glib : GlyphLib) (i : Nat)
    (ident : Option String) (f : Nat) (u : Option String)
    (h : isClaimant auto glib ident = true) (hu : truthyOptStr u = true) :
    ((flags_one auto glib i ident f u).1).testBit 9 = false ∧
    (flags_one auto glib i ident f u).2.1 = u ∧
    warningCount (flags_one auto glib i ident f u).2.2 = 1 := by
  obtain ⟨ha, hb, hc⟩ := cfMain_claimant_claimed auto glib ident f u h hu
  refine ⟨?_, hb, ?_⟩
  · show ((componentFlagsOverlap glib i
      (componentFlagsMain auto glib ident f u).1).1).testBit 9 = false
    rw [cfOverlap_bit9]
    exact ha
  · show warningCount ((componentFlagsMain auto glib ident f u).2.2 ++
      (componentFlagsOverlap glib i (componentFlagsMain auto glib ident f u).1).2) = 1
    rw [cfOverlap_diags, List.append_nil]
    exact hc

theorem flags_one_claimant_free (auto : Bool) (glib : GlyphLib) (i : Nat)
    (ident : Option String) (f : Nat) (u : Option String)
    (h : isClaimant auto glib ident = true) (hu : truthyOptStr u = false) :
    ((flags_one auto glib i ident f u).1).testBit 9 = true ∧
    (flags_one auto glib i ident f u).2.1 = ident ∧
    warningCount (flags_one auto glib i ident f u).2.2 = 0 := by
  obtain ⟨ha, hb, hc⟩ := cfMain_claimant_free auto glib ident f u h hu
  refine ⟨?_, hb, ?_⟩
  · show ((componentFlagsOverlap glib i
      (componentFlagsMain auto glib ident f u).1).1).testBit 9 = true
    rw [cfOverlap_bit9]
    exact ha
  · show warningCount ((componentFlagsMain auto glib ident f u).2.2 ++
      (componentFlagsOverlap glib i (componentFlagsMain auto glib ident f u).1).2) = 0
    rw [cfOverlap_diags, List.append_nil]
    exact hc

/-- Helper (loop invariant): once the `use_my_metrics_comp` state is
truthy, every remaining claimant is cleared and emits one warning. -/
theorem scfLoop_claimed (auto : Bool) (glib : GlyphLib) :
    ∀ (ids : List (Option String)) (fs : List Nat) (i : Nat)
      (u : Option String), ids.length = fs.length → truthyOptStr u = true →
      (∀ k, isClaimant auto glib (ids.getD k Option.none) = true →
        ((scfLoop auto glib ids fs i u).1.getD k 0).testBit 9 = false) ∧
      warningCount (scfLoop auto glib ids fs i u).2 =
        ids.countP (fun id? => isClaimant auto glib id?)
  | [], fs, i, u, hlen, hu => by
    cases fs with
    | nil =>
      refine ⟨fun k hk => ?_, by simp [scfLoop, warningCount]⟩
      rw [List.getD_nil,
        show isClaimant auto glib Option.none = false from rfl] at hk
      simp at hk
    | cons c cs => simp at hlen
  | _ :: _, [], i, u, hlen, hu => by simp at hlen
  | ident :: ids, c :: cs, i, u, hlen, hu => by
    have hlen2 : ids.length = cs.length := by simpa using hlen
    show (∀ k, isClaimant auto glib ((ident :: ids).getD k Option.none) = true →
        (((flags_one auto glib i ident c u).1 ::
          (scfLoop auto glib ids cs (i + 1)
            (flags_one auto glib i ident c u).2.1).1).getD k 0).testBit 9 = false) ∧
      warningCount ((flags_one auto glib i ident c u).2.2 ++
        (scfLoop auto glib ids cs (i + 1)
          (flags_one auto glib i ident c u).2.1).2) =
        (ident :: ids).countP (fun id? => isClaimant auto glib id?)
    by_cases hcl : isClaimant auto glib ident = true
    · obtain ⟨hbit, hst, hw⟩ := flags_one_claimant_claimed auto glib i ident c u hcl hu
      have IH := scfLoop_claimed auto glib ids cs (i + 1)
        (flags_one auto glib i ident c u).2.1 hlen2 (by rw [hst]; exact hu)
      constructor
      · intro k hk
        cases k with
        | zero => simpa using hbit
        | succ k =>
          simp only [List.getD_cons_succ] at hk ⊢
          exact IH.1 k hk
      · rw [warningCount, List.countP_append, ← warningCount, ← warningCount,
          hw, IH.2, List.countP_cons, hcl]
        simp [Nat.add_comm]
    · rw [Bool.not_eq_true] at hcl
      obtain ⟨hst, hw⟩ := flags_one_not_claimant auto glib i ident c u hcl
      have IH := scfLoop_claimed auto glib ids cs (i + 1)
        (flags_one auto glib i ident c u).2.1 hlen2 (by rw [hst]; exact hu)
      constructor
      · intro k hk
        cases k with
        | zero => simp only [List.getD_cons_zero] at hk ⊢; rw [hcl] at hk; cases hk
        | succ k =>
          simp only [List.getD_cons_succ] at hk ⊢
          exact IH.1 k hk
      · rw [warningCount, List.countP_append, ← warningCount, ← warningCount,
          hw, IH.2, List.countP_cons, hcl]
        simp

/-- Helper (loop invariant): starting from the falsy initial state, if the
first claimant of the remaining components sits at index `j` and carries a
non-empty identifier, then after the loop exactly the claimant at `j` has
bit 9 set among the claimants, and every other claimant emitted one
warning. -/
theorem scfLoop_first_claimant (auto : Bool) (glib : GlyphLib) :
    ∀ (ids : List (Option String)) (fs : List Nat) (i j : Nat),
      ids.length = fs.length →
      isClaimant auto glib (ids.getD j Option.none) = true →
      (∀ k, k < j → isClaimant auto glib (ids.getD k Option.none) = false) →
      truthyOptStr (ids.getD j Option.none) = true →
      (∀ k, isClaimant auto glib (ids.getD k Option.none) = true →
        ((((scfLoop auto glib ids fs i Option.none).1.getD k 0).testBit 9 = true)
          ↔ k = j)) ∧
      warningCount (scfLoop auto glib ids fs i Option.none).2 =
        ids.countP (fun id? => isClaimant auto glib id?) - 1
  | [], fs, i, j, hlen, hj, hfirst, hne => by
    rw [List.getD_nil,
      show isClaimant auto glib Option.none = false from rfl] at hj
    simp at hj
  | _ :: _, [], i, j, hlen, hj, hfirst, hne => by simp at hlen
  | ident :: ids, c :: cs, i, j, hlen, hj, hfirst, hne => by
    have hlen2 : ids.length = cs.length := by simpa using hlen
    have heq : scfLoop auto glib (ident :: ids) (c :: cs) i Option.none =
        ((flags_one auto glib i ident c Option.none).1 ::
          (scfLoop auto glib ids cs (i + 1)
            (flags_one auto glib i ident c Option.none).2.1).1,
         (flags_one auto glib i ident c Option.none).2.2 ++
          (scfLoop auto glib ids cs (i + 1)
            (flags_one auto glib i ident c Option.none).2.1).2) := rfl
    rw [heq]
    cases j with
    | zero =>
      simp only [List.getD_cons_zero] at hj hne
      obtain ⟨hbit, hst, hw⟩ :=
        flags_one_claimant_free auto glib i ident c Option.none hj rfl
      have hrest := scfLoop_claimed auto glib ids cs (i + 1)
        (flags_one auto glib i ident c Option.none).2.1 hlen2 (by rw [hst]; exact hne)
      constructor
      · intro k hk
        cases k with
        | zero => simpa using hbit
        | succ k =>
          simp only [List.getD_cons_succ] at hk ⊢
          rw [hrest.1 k hk]
          simp
      · rw [warningCount, List.countP_append, ← warningCount, ← warningCount,
          hw, hrest.2, List.countP_cons, hj]
        simp
    | succ j =>
      simp only [List.getD_cons_succ] at hj hne
      have h0 : isClaimant auto glib ident = false := by
        have := hfirst 0 (Nat.succ_pos j)
        simpa using this
      obtain ⟨hst, hw⟩ := flags_one_not_claimant auto glib i ident c Option.none h0
      have hfirst2 : ∀ k, k < j →
          isClaimant auto glib (ids.getD k Option.none) = false := by
        intro k hk
        have := hfirst (k + 1) (Nat.succ_lt_succ hk)
        simpa using this
      rw [hst]
      have IH := scfLoop_first_claimant auto glib ids cs (i + 1) j hlen2 hj
        hfirst2 hne
      constructor
      · intro k hk
        cases k with
        | zero =>
          simp only [List.getD_cons_zero] at hk
          rw [h0] at hk
          cases hk
        | succ k =>
          simp only [List.getD_cons_succ] at hk ⊢
          rw [IH.1 k hk]
          omega
      · rw [warningCount, List.countP_append, ← warningCount, ← warningCount,
          hw, IH.2, List.countP_cons, h0]
        simp

/-- **C3 (amended)**: with automatic metrics selection disabled and
matching component counts, among the components whose metadata requests
`USE_MY_METRICS`, exactly the first claimant in source order ends with the
flag set — provided that first claimant's identifier is a non-empty
string — and every later claimant is cleared and produces one warning
diagnostic. -/
theorem c3_use_my_metrics (glyph : Glyph) (ttcomps : List Nat) (j : Nat)
    (hlen : ttcomps.length = glyph.components.length)
    (hj : isClaimant false glyph.lib (glyph.components.getD j Option.none) = true)
    (hfirst : ∀ k, k < j →
      isClaimant false glyph.lib (glyph.components.getD k Option.none) = false)
    (hne : truthyOptStr (glyph.components.getD j Option.none) = true) :
    (∀ k, isClaimant false glyph.lib (glyph.components.getD k Option.none) = true →
      (hasFlag ((set_composite_flags false glyph ttcomps).1.getD k 0)
        USE_MY_METRICS = true ↔ k = j)) ∧
    warningCount (set_composite_flags false glyph ttcomps).2 =
      glyph.components.countP (fun id? => isClaimant false glyph.lib id?) - 1 := by
  unfold set_composite_flags
  simp only [hlen, ne_eq, not_true_eq_false, if_false]
  have H := scfLoop_first_claimant false glyph.lib glyph.components ttcomps 0 j
    hlen.symm hj hfirst hne
  refine ⟨fun k hk => ?_, H.2⟩
  rw [hasFlag_USE_MY_METRICS]
  exact H.1 k hk

/-- Witness for C3 (amended): two claimants `"a"`, `"b"`: the first gets
the flag, the second is cleared with one warning. -/
theorem c3_use_my_metrics_witness :
    (hasFlag ((set_composite_flags false c3GlyphW [0, 0]).1.getD 0 0)
      USE_MY_METRICS = true ↔ 0 = 0) ∧
    (hasFlag ((set_composite_flags false c3GlyphW [0, 0]).1.getD 1 0)
      USE_MY_METRICS = true ↔ 1 = 0) ∧
    warningCount (set_composite_flags false c3GlyphW [0, 0]).2 = 1 :=
  ⟨(c3_use_my_metrics c3GlyphW [0, 0] 0 rfl (by decide)
      (fun k hk => absurd hk (Nat.not_lt_zero k)) (by decide)).1 0 (by decide),
   (c3_use_my_metrics c3GlyphW [0, 0] 0 rfl (by decide)
      (fun k hk => absurd hk (Nat.not_lt_zero k)) (by decide)).1 1 (by decide),
   ((c3_use_my_metrics c3GlyphW [0, 0] 0 rfl (by decide)
      (fun k hk => absurd hk (Nat.not_lt_zero k)) (by decide)).2).trans (by decide)⟩

/-- Counterexample to C3 as stated: when the first claimant's identifier
is the empty string, the Python truthiness test `if use_my_metrics_comp:`
fails for it, so the second claimant ALSO gets `USE_MY_METRICS` set and no
warning is emitted: two claimants end up carrying the flag. -/
theorem c3_counterexample :
    isClaimant false c3Glyph.lib (some "") = true ∧
    isClaimant false c3Glyph.lib (some "a") = true ∧
    hasFlag ((set_composite_flags false c3Glyph [0, 0]).1.getD 0 0)
      USE_MY_METRICS = true ∧
    hasFlag ((set_composite_flags false c3Glyph [0, 0]).1.getD 1 0)
      USE_MY_METRICS = true ∧
    warningCount (set_composite_flags false c3Glyph [0, 0]).2 = 0 := by
  exact ⟨by decide, by decide, by decide, by decide, by decide⟩

theorem lookup_mem (k v : Int) :
    ∀ (ps : List (Int × Int)), ps.lookup k = some v → (k, v) ∈ ps
  | [], h => by simp [List.lookup] at h
  | (a, b) :: ps, h => by
    simp only [List.lookup] at h
    cases hbeq : k == a with
    | true =>
      rw [hbeq] at h
      have hka : k = a := by simpa using hbeq
      have hbv : b = v := by simpa using h
      rw [hka, ← hbv]
      exact List.mem_cons_self _ _
    | false =>
      rw [hbeq] at h
      exact List.mem_cons_of_mem _ (lookup_mem k v ps h)

theorem lookupLast_mem (ps : List (Int × Int)) (k v : Int)
    (h : lookupLast ps k = some v) : (k, v) ∈ ps := by
  unfold lookupLast at h
  exact List.mem_reverse.mp (lookup_mem k v ps.reverse h)

theorem parsedEntries_mem (cv : List (String × Int)) (q : Int × Int)
    (hq : q ∈ parsedEntries cv) :
    ∃ p ∈ cv, pyInt p.1 = some q.1 ∧ q.2 = p.2 := by
  unfold parsedEntries at hq
  obtain ⟨p, hp, hmap⟩ := List.mem_filterMap.mp hq
  cases hpi : pyInt p.1 with
  | none => rw [hpi] at hmap; simp at hmap
  | some k =>
    rw [hpi] at hmap
    obtain rfl : (k, p.2) = q := by simpa using hmap
    exact ⟨p, hp, hpi, rfl⟩

theorem parsedEntries_length (cv : List (String × Int))
    (h : ∀ p ∈ cv, (pyInt p.1).isSome = true) :
    (parsedEntries cv).length = cv.length := by
  induction cv with
  | nil => rfl
  | cons p cv ih =>
    have hp := h p (List.mem_cons_self p cv)
    cases hpi : pyInt p.1 with
    | none => rw [hpi] at hp; simp at hp
    | some k =>
      have ih2 := ih (fun q hq => h q (List.mem_cons_of_mem p hq))
      simp [parsedEntries, List.filterMap_cons, hpi] at ih2 ⊢
      exact ih2

theorem mapM_parse (cv : List (String × Int))
    (h : ∀ p ∈ cv, (pyInt p.1).isSome = true) :
    (cv.mapM (fun p =>
      match pyInt p.1 with
      | some k => Except.ok ((k, p.2) : Int × Int)
      | Option.none => Except.error PyError.valueError)) =
      Except.ok (parsedEntries cv) := by
  induction cv with
  | nil => rfl
  | cons p cv ih =>
    have hp := h p (List.mem_cons_self p cv)
    cases hpi : pyInt p.1 with
    | none => rw [hpi] at hp; simp at hp
    | some k =>
      rw [List.mapM_cons]
      have ih2 := ih (fun q hq => h q (List.mem_cons_of_mem p hq))
      rw [ih2]
      simp only [hpi, parsedEntries, List.filterMap_cons, Option.map_some']
      rfl

theorem foldl_maxKey_init_le (l : List (Int × Int)) (a : Int) :
    a ≤ l.foldl (fun x p => max x p.1) a := by
  induction l generalizing a with
  | nil => exact le_refl a
  | cons q qs ih => exact le_trans (le_max_left a q.1) (ih _)

theorem mem_le_foldl_maxKey (k : Int × Int) :
    ∀ (l : List (Int × Int)) (a : Int),
      k ∈ l → k.1 ≤ l.foldl (fun x p => max x p.1) a
  | [], _, hx => absurd hx (List.not_mem_nil k)
  | q :: qs, a, hx => by
    rcases List.mem_cons.mp hx with h | h
    · subst h
      exact le_trans (le_max_right a k.1) (foldl_maxKey_init_le qs _)
    · exact mem_le_foldl_maxKey k qs _ h

theorem mem_le_maxKey (q : Int × Int) (l : List (Int × Int)) (h : q ∈ l) :
    q.1 ≤ maxKey l := by
  cases l with
  | nil => exact absurd h (List.not_mem_nil q)
  | cons q0 qs =>
    rw [maxKey]
    rcases List.mem_cons.mp h with h | h
    · rw [h]
      exact foldl_maxKey_init_le qs q0.1
    · exact mem_le_foldl_maxKey q qs q0.1 h

/-- Helper: evaluation of `setupTable_cvt` on the happy path up to the
final emptiness and range checks. -/
theorem setupTable_cvt_eval (d : FontTTData) (cv : List (String × Int))
    (q : Int × Int) (qs : List (Int × Int))
    (hfmt : d.formatVersion = .str "1")
    (hcv : d.controlValue = some cv)
    (hcvne : cv ≠ [])
    (hparse : ∀ p ∈ cv, (pyInt p.1).isSome = true)
    (hpe : parsedEntries cv = q :: qs) :
    setupTable_cvt (some d) =
      (let maxk := qs.foldl (fun a p => max a p.1) q.1
       let cvts := (List.range (maxk + 1).toNat).map
         (fun i => (lookupLast (q :: qs) (Int.ofNat i)).getD 0)
       if cvts.isEmpty then Except.ok Option.none
       else if cvts.all (fun v => -32768 ≤ v && v ≤ 32767) then
         Except.ok (some cvts)
       else Except.error PyError.overflowError) := by
  have hne : d.isEmptyDict = false := by
    simp [FontTTData.isEmptyDict, hfmt]
  have hchk : check_tt_data_format d.formatVersion = .ok () := by
    rw [hfmt]; rfl
  have hemp : cv.isEmpty = false := by
    cases cv with
    | nil => exact absurd rfl hcvne
    | cons a l => rfl
  simp only [setupTable_cvt, hne, Bool.false_eq_true, if_false, hchk,
    exceptBind_ok, hcv, hemp, mapM_parse cv hparse, hpe]
  rfl

/-- Helper: every entry of the built table is `0` or an authored value,
so the signed 16-bit range check passes whenever the authored values are
in range. -/
theorem cvts_all_in_range (cv : List (String × Int))
    (hrange : ∀ p ∈ cv, -32768 ≤ p.2 ∧ p.2 ≤ 32767)
    (q : Int × Int) (qs : List (Int × Int))
    (hpe : parsedEntries cv = q :: qs) (n : Nat) :
    ((List.range n).map
      (fun i => (lookupLast (q :: qs) (Int.ofNat i)).getD 0)).all
      (fun v => -32768 ≤ v && v ≤ 32767) = true := by
  rw [List.all_eq_true]
  intro v hv
  obtain ⟨i, hi, rfl⟩ := List.mem_map.mp hv
  cases hlk : lookupLast (q :: qs) (Int.ofNat i) with
  | none => simp [hlk]
  | some w =>
    have hmem := lookupLast_mem _ _ _ hlk
    rw [← hpe] at hmem
    obtain ⟨p, hp, -, hw⟩ := parsedEntries_mem cv _ hmem
    obtain ⟨h1, h2⟩ := hrange p hp
    simp only at hw
    simp [hlk, hw, h1, h2]

/-- **C9**: with a valid format, a non-empty `controlValue` mapping whose
keys are string-encoded non-negative integers and whose values fit in
signed 16 bits yields a control-value table of length `max key + 1` whose
entry at every index is the authored value (latest binding) or `0` when
the index is unlisted; an absent or empty mapping produces no table. -/
theorem c9_cvt_table (d : FontTTData) (hfmt : d.formatVersion = .str "1") :
    (∀ cv, d.controlValue = some cv → cv ≠ [] →
      (∀ p ∈ cv, ∃ k : Int, pyInt p.1 = some k ∧ 0 ≤ k) →
      (∀ p ∈ cv, -32768 ≤ p.2 ∧ p.2 ≤ 32767) →
      ∃ t : List Int, setupTable_cvt (some d) = .ok (some t) ∧
        (t.length : Int) = maxKey (parsedEntries cv) + 1 ∧
        (∀ i : Nat, i < t.length →
          t.getD i 0 = (lookupLast (parsedEntries cv) (Int.ofNat i)).getD 0)) ∧
    (d.controlValue = Option.none → setupTable_cvt (some d) = .ok Option.none) ∧
    (d.controlValue = some [] → setupTable_cvt (some d) = .ok Option.none) ∧
    setupTable_cvt Option.none = .ok Option.none := by
  have hne : d.isEmptyDict = false := by
    simp [FontTTData.isEmptyDict, hfmt]
  have hchk : check_tt_data_format d.formatVersion = .ok () := by
    rw [hfmt]; rfl
  refine ⟨?_, ?_, ?_, rfl⟩
  · intro cv hcv hcvne hparse hrange
    have hparse2 : ∀ p ∈ cv, (pyInt p.1).isSome = true := by
      intro p hp
      obtain ⟨k, hk, -⟩ := hparse p hp
      simp [hk]
    have hlen : (parsedEntries cv).length = cv.length :=
      parsedEntries_length cv hparse2
    obtain ⟨q, qs, hpe⟩ : ∃ q qs, parsedEntries cv = q :: qs := by
      cases hx : parsedEntries cv with
      | nil =>
        rw [hx] at hlen
        cases cv with
        | nil => exact absurd rfl hcvne
        | cons a l => simp at hlen
      | cons q qs => exact ⟨q, qs, rfl⟩
    have hkeys : ∀ r ∈ parsedEntries cv, (0 : Int) ≤ r.1 := by
      intro r hr
      obtain ⟨p, hp, hpi, -⟩ := parsedEntries_mem cv r hr
      obtain ⟨k, hk, hk0⟩ := hparse p hp
      rw [hk] at hpi
      obtain rfl : k = r.1 := by simpa using hpi
      exact hk0
    have hqmem : q ∈ parsedEntries cv := by
      rw [hpe]; exact List.mem_cons_self q qs
    have hmax0 : (0 : Int) ≤ maxKey (parsedEntries cv) :=
      le_trans (hkeys q hqmem) (mem_le_maxKey q _ hqmem)
    have hmaxeq : maxKey (parsedEntries cv) =
        qs.foldl (fun a p => max a p.1) q.1 := by
      rw [hpe, maxKey]
    set maxk := qs.foldl (fun a p => max a p.1) q.1 with hmaxk
    set cvts := (List.range (maxk + 1).toNat).map
      (fun i => (lookupLast (q :: qs) (Int.ofNat i)).getD 0) with hcvts
    clear_value maxk cvts
    have hmaxnn : (0 : Int) ≤ maxk := hmaxeq ▸ hmax0
    have hlen2 : cvts.length = (maxk + 1).toNat := by
      rw [hcvts, List.length_map, List.length_range]
    have hcast : (((maxk + 1).toNat : Int)) = maxk + 1 :=
      Int.toNat_of_nonneg (by omega)
    have hlenpos : 0 < (maxk + 1).toNat := by omega
    have hemp2 : cvts.isEmpty = false := by
      cases hc : cvts with
      | nil =>
        rw [hc] at hlen2
        simp only [List.length_nil] at hlen2
        omega
      | cons a l => rfl
    have hall : cvts.all (fun v => -32768 ≤ v && v ≤ 32767) = true := by
      rw [hcvts]
      exact cvts_all_in_range cv hrange q qs hpe _
    have heval := setupTable_cvt_eval d cv q qs hfmt hcv hcvne hparse2 hpe
    refine ⟨cvts, ?_, ?_, ?_⟩
    · rw [heval]
      simp only [← hmaxk, ← hcvts, hemp2, Bool.false_eq_true, if_false, hall,
        if_true]
    · rw [hlen2, hcast, hmaxeq]
    · intro i hi
      rw [hpe]
      rw [hlen2] at hi
      rw [hcvts, List.getD_eq_get?, List.get?_map, List.get?_range hi]
      rfl
  · intro hcv
    simp only [setupTable_cvt, hne, Bool.false_eq_true, if_false, hchk,
      exceptBind_ok, hcv]
    rfl
  · intro hcv
    simp only [setupTable_cvt, hne, Bool.false_eq_true, if_false, hchk,
      exceptBind_ok, hcv]
    rfl

/-- Witness for C9 at the spec's own example: `{"1": 500, "2": 750,
"3": -250}` yields the table `[0, 500, 750, -250]`; an absent mapping
yields no table. -/
theorem c9_cvt_table_witness :
    (∃ t : List Int, setupTable_cvt (some cvtLibEx) = .ok (some t) ∧
      (t.length : Int) =
        maxKey (parsedEntries [("1", 500), ("2", 750), ("3", -250)]) + 1 ∧
      (∀ i : Nat, i < t.length →
        t.getD i 0 =
          (lookupLast (parsedEntries [("1", 500), ("2", 750), ("3", -250)])
            (Int.ofNat i)).getD 0)) ∧
    setupTable_cvt (some cvtLibEx) = .ok (some [0, 500, 750, -250]) ∧
    setupTable_cvt (some fontLibEx) = .ok Option.none :=
  ⟨(c9_cvt_table cvtLibEx rfl).1 [("1", 500), ("2", 750), ("3", -250)] rfl
      (by decide)
      (by
        intro p hp
        simp only [List.mem_cons, List.not_mem_nil, or_false] at hp
        rcases hp with rfl | rfl | rfl
        · exact ⟨1, by decide⟩
        · exact ⟨2, by decide⟩
        · exact ⟨3, by decide⟩)
      (by decide),
   by rfl,
   (c9_cvt_table fontLibEx rfl).2.1 rfl⟩

/-- **C10**: `setupTable_cvt` is total when every key parses as a decimal
integer and every value fits in signed 16 bits; outside that precondition
it raises: a non-numeric key raises `ValueError` from `int(k)` and an
out-of-range value raises `OverflowError` from `array.array("h", ...)` —
these are exceptions, not soft diagnostics. -/
theorem c10_cvt_preconditions (d : FontTTData)
    (hfmt : d.formatVersion = .str "1") :
    (∀ cv, d.controlValue = some cv →
      (∀ p ∈ cv, (pyInt p.1).isSome = true) →
      (∀ p ∈ cv, -32768 ≤ p.2 ∧ p.2 ≤ 32767) →
      ∃ r, setupTable_cvt (some d) = .ok r) ∧
    (d.controlValue = some [("x", 5)] →
      setupTable_cvt (some d) = .error .valueError) ∧
    (d.controlValue = some [("1", 40000)] →
      setupTable_cvt (some d) = .error .overflowError) := by
  have hne : d.isEmptyDict = false := by
    simp [FontTTData.isEmptyDict, hfmt]
  have hchk : check_tt_data_format d.formatVersion = .ok () := by
    rw [hfmt]; rfl
  refine ⟨?_, ?_, ?_⟩
  · intro cv hcv hparse hrange
    by_cases hcvne : cv = []
    · subst hcvne
      refine ⟨Option.none, ?_⟩
      simp only [setupTable_cvt, hne, Bool.false_eq_true, if_false, hchk,
        exceptBind_ok, hcv]
      rfl
    · have hlen : (parsedEntries cv).length = cv.length :=
        parsedEntries_length cv hparse
      obtain ⟨q, qs, hpe⟩ : ∃ q qs, parsedEntries cv = q :: qs := by
        cases hx : parsedEntries cv with
        | nil =>
          rw [hx] at hlen
          cases cv with
          | nil => exact absurd rfl hcvne
          | cons a l => simp at hlen
        | cons q qs => exact ⟨q, qs, rfl⟩
      have heval := setupTable_cvt_eval d cv q qs hfmt hcv hcvne hparse hpe
      rw [heval]
      dsimp only
      split_ifs with h1 h2
      · exact ⟨Option.none, rfl⟩
      · exact ⟨some _, rfl⟩
      · exact absurd (cvts_all_in_range cv hrange q qs hpe _) h2
  · intro hcv
    simp only [setupTable_cvt, hne, Bool.false_eq_true, if_false, hchk,
      exceptBind_ok, hcv]
    rfl
  · intro hcv
    simp only [setupTable_cvt, hne, Bool.false_eq_true, if_false, hchk,
      exceptBind_ok, hcv]
    rfl

/-- Witness for C10: the good mapping compiles, the non-numeric key
raises `ValueError`, the out-of-range value raises `OverflowError`. -/
theorem c10_cvt_preconditions_witness :
    (∃ r, setupTable_cvt (some cvtLibEx) = .ok r) ∧
    setupTable_cvt (some cvtBadKeyLib) = .error .valueError ∧
    setupTable_cvt (some cvtBadValLib) = .error .overflowError :=
  ⟨(c10_cvt_preconditions cvtLibEx rfl).1 [("1", 500), ("2", 750), ("3", -250)]
      rfl (by decide) (by decide),
   (c10_cvt_preconditions cvtBadKeyLib rfl).2.1 rfl,
   (c10_cvt_preconditions cvtBadValLib rfl).2.2 rfl⟩

end InstructionCompiler
